import Mathlib

/-!
# Link synchronisation of `MediaSinkImpl` (server/types/MediaSinkImpl.cpp)

A shallow embedding of the consuming endpoint of the Kurento media server:
`linkPad`, `unlink`, `unlinkUnchecked`, `getConnectedSrc`, the blocking-probe
adaptor `pad_blocked_adaptor` and the capsfilter tear-down callbacks
`sink_unlinked`, `src_unlinked`, `remove_from_parent`.

The GStreamer calls the file makes are modelled by a small pipeline state
`Gst` (pads, pad links, bin membership, "unlinked" signal connections, the
"processed" pad datum) with the documented behaviour of each call.  The
streaming threads are modelled by the number of times the runtime invokes a
registered blocking probe; a call that waits on the condition variable for
ever has no result (`none`).
-/

namespace Kurento

/-! ## GStreamer pipeline state -/

/-- Identity of a `GstElement` (a `GstBin` is an element as well). -/
abbrev Elem := Nat

/-- A `GstPad`, identified by the element it was created on and its name. -/
structure Pad where
  elem : Elem
  name : String
deriving DecidableEq, Repr

/-- The two callbacks this file connects to the "unlinked" signal, with the
`filter` user datum given to `g_signal_connect`. -/
inductive Callback
  | sink_unlinked (filter : Elem)
  | src_unlinked (filter : Elem)
deriving DecidableEq, Repr

inductive GstPadLinkReturn
  | GST_PAD_LINK_OK
  | GST_PAD_LINK_WAS_LINKED
  | GST_PAD_LINK_REFUSED
deriving DecidableEq, Repr

inductive GstPadProbeReturn
  | GST_PAD_PROBE_DROP
  | GST_PAD_PROBE_OK
  | GST_PAD_PROBE_REMOVE
  | GST_PAD_PROBE_PASS
deriving DecidableEq, Repr

/-- Record of the pipeline mutations performed, most recent first. -/
inductive Event
  | link (srcpad sinkpad : Pad) (ret : GstPadLinkReturn)
  | unlink (srcpad sinkpad : Pad)
  | bin_add (bin element : Elem)
  | bin_remove (bin element : Elem)
  | probe_handler (pad : Pad)
deriving DecidableEq, Repr

/-- The part of the GStreamer pipeline the file reads and writes.
* `pads`: the pads currently exposed by their element;
* `request`: those of them obtained with `gst_element_get_request_pad`;
* `links`: the pad links, as pairs (source pad, sink pad);
* `children`: bin membership, as pairs (bin, element);
* `handlers`: the "unlinked" signal connections, in connection order;
* `processed`: the pads whose "processed" datum is TRUE;
* `nextElem`: the identity `gst_element_factory_make` gives the next element;
* `trace`: the mutations performed so far. -/
structure Gst where
  pads : List Pad
  request : List Pad
  links : List (Pad × Pad)
  children : List (Elem × Elem)
  handlers : List (Pad × Callback)
  processed : List Pad
  nextElem : Elem
  trace : List Event
deriving DecidableEq, Repr

/-- Whether a link has pad `p` at one of its ends. -/
def touches (p : Pad) (l : Pad × Pad) : Bool :=
  decide (l.1 = p) || decide (l.2 = p)

def gst_pad_get_peer (g : Gst) (p : Pad) : Option Pad :=
  match g.links.find? (touches p) with
  | some l => some (if l.1 = p then l.2 else l.1)
  | none => none

def gst_pad_is_linked (g : Gst) (p : Pad) : Bool :=
  (gst_pad_get_peer g p).isSome

/-- `GST_OBJECT_PARENT (pad)`: the element exposing the pad, if any. -/
def padParent (g : Gst) (p : Pad) : Option Elem :=
  if p ∈ g.pads then some p.elem else none

/-- `GST_OBJECT_PARENT (element)`: the bin holding the element, if any. -/
def elemParent (g : Gst) (e : Elem) : Option Elem :=
  match g.children.find? (fun c => decide (c.2 = e)) with
  | some c => some c.1
  | none => none

def gst_element_get_static_pad (g : Gst) (e : Elem) (name : String) : Option Pad :=
  if (⟨e, name⟩ : Pad) ∈ g.pads then some ⟨e, name⟩ else none

/-- `gst_element_get_request_pad`: the element creates the pad named by the
template and exposes it. -/
def gst_element_get_request_pad (g : Gst) (e : Elem) (name : String) : Pad × Gst :=
  (⟨e, name⟩, { g with pads := ⟨e, name⟩ :: g.pads, request := ⟨e, name⟩ :: g.request })

/-- `gst_element_factory_make ("capsfilter", NULL)`: a new element with the
static pads "sink" and "src". -/
def gst_element_factory_make (g : Gst) : Elem × Gst :=
  (g.nextElem,
   { g with pads := ⟨g.nextElem, "sink"⟩ :: ⟨g.nextElem, "src"⟩ :: g.pads,
            nextElem := g.nextElem + 1 })

def g_signal_connect (pad : Pad) (cb : Callback) (g : Gst) : Gst :=
  { g with handlers := g.handlers ++ [(pad, cb)] }

def gst_bin_add (bin element : Elem) (g : Gst) : Gst :=
  { g with children := (bin, element) :: g.children,
           trace := Event.bin_add bin element :: g.trace }

/-- `gst_pad_link`: refused with WAS_LINKED when either pad has a peer;
otherwise the outcome of the remaining checks (direction, hierarchy, caps) is
given by `accepts`. -/
def gst_pad_link (accepts : Pad → Pad → Bool) (srcpad sinkpad : Pad) (g : Gst) :
    GstPadLinkReturn × Gst :=
  if gst_pad_is_linked g srcpad || gst_pad_is_linked g sinkpad then
    (.GST_PAD_LINK_WAS_LINKED,
     { g with trace := Event.link srcpad sinkpad .GST_PAD_LINK_WAS_LINKED :: g.trace })
  else if accepts srcpad sinkpad then
    (.GST_PAD_LINK_OK,
     { g with links := (srcpad, sinkpad) :: g.links,
              trace := Event.link srcpad sinkpad .GST_PAD_LINK_OK :: g.trace })
  else
    (.GST_PAD_LINK_REFUSED,
     { g with trace := Event.link srcpad sinkpad .GST_PAD_LINK_REFUSED :: g.trace })

/-! ## Capsfilter tear-down callbacks (lines 70-120)

`gst_pad_unlink` emits "unlinked" on both pads, the callbacks unlink again,
so the callbacks take the unlink function they call as an argument and
`gst_pad_unlinkF` closes the recursion. -/

/-- `gst_bin_remove`: the pads of the element that are still linked are
unlinked, then the element leaves the bin. -/
def gst_bin_remove (unlink : Pad → Pad → Gst → Gst) (bin element : Elem) (g : Gst) : Gst :=
  let g1 := (g.links.filter
      (fun l => decide (l.1.elem = element) || decide (l.2.elem = element))).foldl
      (fun acc l => unlink l.1 l.2 acc) g
  if (bin, element) ∈ g1.children then
    { g1 with children := g1.children.filter (fun c => decide (c ≠ (bin, element))),
              trace := Event.bin_remove bin element :: g1.trace }
  else g1

/-- `remove_from_parent` (lines 70-82).  The element state set by
`gst_element_set_locked_state` and `gst_element_set_state` is not part of the
modelled pipeline. -/
def remove_from_parent (unlink : Pad → Pad → Gst → Gst) (element : Elem) (g : Gst) : Gst :=
  match elemParent g element with
  | none => g
  | some parent => gst_bin_remove unlink parent element g

/-- `sink_unlinked` (lines 84-101), connected to "unlinked" of the "sink" pad
of the capsfilter: a missing pad has no peer. -/
def sink_unlinked (unlink : Pad → Pad → Gst → Gst) (_pad _peer : Pad) (filter : Elem)
    (g : Gst) : Gst :=
  match (gst_element_get_static_pad g filter "src").bind (fun src =>
      (gst_pad_get_peer g src).map (fun src_peer => (src, src_peer))) with
  | some (src, src_peer) => unlink src src_peer g
  | none => remove_from_parent unlink filter g

/-- `src_unlinked` (lines 103-120), connected to "unlinked" of the "src" pad
of the capsfilter. -/
def src_unlinked (unlink : Pad → Pad → Gst → Gst) (_pad _peer : Pad) (filter : Elem)
    (g : Gst) : Gst :=
  match (gst_element_get_static_pad g filter "sink").bind (fun sink =>
      (gst_pad_get_peer g sink).map (fun sink_peer => (sink, sink_peer))) with
  | some (sink, sink_peer) => unlink sink_peer sink g
  | none => remove_from_parent unlink filter g

def runCallback (unlink : Pad → Pad → Gst → Gst) (pad peer : Pad) : Callback → Gst → Gst
  | .sink_unlinked filter => sink_unlinked unlink pad peer filter
  | .src_unlinked filter => src_unlinked unlink pad peer filter

/-- Emission of "unlinked" on `pad`: the callbacks connected to it run in
connection order. -/
def emit_unlinked (unlink : Pad → Pad → Gst → Gst) (pad peer : Pad) (g : Gst) : Gst :=
  ((g.handlers.filter (fun h => decide (h.1 = pad))).map (fun h => h.2)).foldl
    (fun acc cb => runCallback unlink pad peer cb acc) g

/-- The two peers are cleared, as `gst_pad_unlink` does before it signals. -/
def clearPeers (srcpad sinkpad : Pad) (g : Gst) : Gst :=
  { g with links := g.links.filter (fun l => !(touches srcpad l || touches sinkpad l)),
           trace := Event.unlink srcpad sinkpad :: g.trace }

/-- `gst_pad_unlink` with a bound on the nesting of signal emissions. -/
def gst_pad_unlinkF : Nat → Pad → Pad → Gst → Gst
  | 0, _, _, g => g
  | n + 1, srcpad, sinkpad, g =>
    if gst_pad_get_peer g srcpad = some sinkpad then
      let g1 := clearPeers srcpad sinkpad g
      let g2 := emit_unlinked (gst_pad_unlinkF n) srcpad sinkpad g1
      emit_unlinked (gst_pad_unlinkF n) sinkpad srcpad g2
    else g

/-- `gst_pad_unlink`: nothing happens unless the peer of `srcpad` is
`sinkpad`; otherwise both peers are cleared and "unlinked" is emitted on
`srcpad`, then on `sinkpad`.  Every nested unlink removes a link, so the
number of links bounds the nesting. -/
def gst_pad_unlink (srcpad sinkpad : Pad) (g : Gst) : Gst :=
  gst_pad_unlinkF g.links.length srcpad sinkpad g

/-- `gst_element_remove_pad`, the default of `gst_element_release_request_pad`:
the pad is unlinked when it has a peer and leaves the element. -/
def gst_element_remove_pad (pad : Pad) (g : Gst) : Gst :=
  let g1 := match g.links.find? (touches pad) with
    | some l => gst_pad_unlink l.1 l.2 g
    | none => g
  { g1 with pads := g1.pads.erase pad, request := g1.request.erase pad }

/-- `gst_element_release_request_pad`: only a request pad of the element is
released. -/
def gst_element_release_request_pad (element : Elem) (pad : Pad) (g : Gst) : Gst :=
  if pad ∈ g.request ∧ pad.elem = element then gst_element_remove_pad pad g else g

/-! ## Media objects -/

inductive MediaType
  | AUDIO
  | VIDEO
deriving DecidableEq, Repr

/-- A `MediaSourceImpl` object: its identity and its `getParent ()`. -/
structure MediaSourceImpl where
  id : Nat
  parent : Option Nat
deriving DecidableEq, Repr

/-- The `MediaSinkImpl` object `this`: `connectedSrc` is the weak reference
to the connected producer, the other fields are what `getMediaType ()`,
`getParent ()` and `getGstreamerElement ()` return. -/
structure MediaSinkImpl where
  id : Nat
  mediaType : MediaType
  parent : Option Nat
  element : Elem
  connectedSrc : Option MediaSourceImpl
deriving DecidableEq, Repr

/-- The program state seen by the methods of one consuming endpoint:
the pipeline, the producers that are still alive (owned by a shared
pointer), the records `connectedSinks` kept by the producers, as pairs
(producer, sink identity), and the endpoint itself. -/
structure State where
  gst : Gst
  alive : List MediaSourceImpl
  connectedSinks : List (MediaSourceImpl × Nat)
  self : MediaSinkImpl
deriving DecidableEq, Repr

/-- `connectedSrc.lock ()`: the producer when it is still alive. -/
def lock (s : State) : Option MediaSourceImpl :=
  match s.self.connectedSrc with
  | some p => if p ∈ s.alive then some p else none
  | none => none

/-- `MediaSinkImpl::getPadName` (lines 60-68). -/
def getPadName (self : MediaSinkImpl) : String :=
  if self.mediaType = MediaType.AUDIO then "audio_sink" else "video_sink"

/-- Modelled from the spec: `MediaSourceImpl::removeSink` is not part of
this file; by section 4.3 step 3 the producing side drops its record of this
consumer. -/
def removeSink (p : MediaSourceImpl) (s : State) : State :=
  { s with connectedSinks :=
      s.connectedSinks.filter (fun r => decide (r ≠ (p, s.self.id))) }

/-! ## Quiescent unlink (lines 211-312) -/

/-- The variables `blockedLambda` captures by reference: `blocked`, and the
number of `cond.signal ()` calls made (each follows one `gst_pad_unlink`
call of the lambda). -/
structure Wait where
  blocked : Bool
  signals : Nat
deriving DecidableEq, Repr

/-- `g_object_set_data (G_OBJECT (pad), "processed", TRUE)`, followed by the
record that the handler is about to run. -/
def setProcessed (pad : Pad) (g : Gst) : Gst :=
  { g with processed := pad :: g.processed,
           trace := Event.probe_handler pad :: g.trace }

/-- `pad_blocked_adaptor` (lines 228-253); `handler` works on the pipeline and
on the variables it captured. -/
def pad_blocked_adaptor {κ : Type} (pad : Pad) (handler : Pad → Gst × κ → Gst × κ)
    (st : Gst × κ) : GstPadProbeReturn × (Gst × κ) :=
  if pad ∈ st.1.processed then
    (.GST_PAD_PROBE_REMOVE, st)
  else
    (.GST_PAD_PROBE_REMOVE, handler pad (setProcessed pad st.1, st.2))

/-- The lambda of `unlinkUnchecked` (lines 279-292): `sinkPad` is captured,
`pad` is the pad the probe sits on. -/
def blockedLambda (sinkPad : Pad) (pad : Pad) (st : Gst × Wait) : Gst × Wait :=
  if st.2.blocked then st
  else (gst_pad_unlink pad sinkPad st.1, { blocked := true, signals := st.2.signals + 1 })

/-- The runtime invokes the probe callback registered on `pad` the given
number of times. -/
def fireProbe {κ : Type} (pad : Pad) (handler : Pad → Gst × κ → Gst × κ) :
    Nat → Gst × κ → Gst × κ
  | 0, st => st
  | n + 1, st => fireProbe pad handler n (pad_blocked_adaptor pad handler st).2

/-- Lines 272-306 of `unlinkUnchecked`: when the pad has a peer, the blocking
probe is registered on the peer and the caller waits until `blocked` is set.
`fires` is the number of times the streaming threads run the probe callback;
the result is `none` when the wait on the condition variable never ends. -/
def unlinkUnchecked_wait (fires : Nat) (sinkPad : Pad) (g : Gst) : Option Gst :=
  match gst_pad_get_peer g sinkPad with
  | some peer =>
    let st := fireProbe peer (blockedLambda sinkPad) fires
      (g, { blocked := false, signals := 0 })
    if st.2.blocked then some st.1 else none
  | none => some g

/-- Lines 261-266 of `unlinkUnchecked`: the pad the call works on. -/
def unlinkUnchecked_pad (self : MediaSinkImpl) (sink : Option Pad) (g : Gst) : Option Pad :=
  match sink with
  | none => gst_element_get_static_pad g self.element (getPadName self)
  | some p => some p

/-- `MediaSinkImpl::unlinkUnchecked`. -/
def unlinkUnchecked (self : MediaSinkImpl) (fires : Nat) (sink : Option Pad) (g : Gst) :
    Option Gst :=
  match unlinkUnchecked_pad self sink g with
  | none => some g
  | some sinkPad =>
    match unlinkUnchecked_wait fires sinkPad g with
    | none => none
    | some g1 =>
      if sink = none then some (gst_element_release_request_pad self.element sinkPad g1)
      else some g1

/-- `MediaSinkImpl::unlink`. -/
def unlink (fires : Nat) (mediaSrc : Option MediaSourceImpl) (sink : Option Pad) (s : State) :
    Option State :=
  match lock s with
  | some connectedSrcLocked =>
    if mediaSrc = some connectedSrcLocked then
      match unlinkUnchecked s.self fires sink s.gst with
      | none => none
      | some g => some (removeSink connectedSrcLocked { s with gst := g })
    else some s
  | none => some s

/-- `MediaSinkImpl::getConnectedSrc`, with the state it leaves. -/
def getConnectedSrc (s : State) : Option MediaSourceImpl × State :=
  (lock s, s)

/-! ## Link establishment (lines 122-209) -/

/-- Lines 135-139 of `linkPad`: the consuming pad is looked up, and requested
when the element does not expose it. -/
def linkPad_sink (s : State) : Pad × Gst :=
  match gst_element_get_static_pad s.gst s.self.element (getPadName s.self) with
  | some sink => (sink, s.gst)
  | none => gst_element_get_request_pad s.gst s.self.element (getPadName s.self)

/-- Lines 130-143 of `linkPad`: the consuming pad is looked up or requested,
and unlinked from the tracked producer when it is linked. -/
def linkPad_resolve (fires : Nat) (s : State) : Option (Pad × State) :=
  let connectedSrcLocked := lock s
  let r := linkPad_sink s
  let s0 : State := { s with gst := r.2 }
  if gst_pad_is_linked r.2 r.1 then
    match unlink fires connectedSrcLocked (some r.1) s0 with
    | none => none
    | some s1 => some (r.1, s1)
  else some (r.1, s0)

/-- Lines 164-175 of `linkPad`: the capsfilter is made, the two tear-down
callbacks are connected to its pads and it is added to the container
(`gst_element_sync_state_with_parent` has no effect on the modelled state). -/
def linkPad_insert (container : Elem) (g : Gst) : Elem × Gst :=
  let f := gst_element_factory_make g
  let filter := f.1
  let g1 := g_signal_connect ⟨filter, "sink"⟩ (Callback.sink_unlinked filter) f.2
  let g2 := g_signal_connect ⟨filter, "src"⟩ (Callback.src_unlinked filter) g1
  (filter, gst_bin_add container filter g2)

/-- Lines 145-191 of `linkPad`, the loopback branch: `none` stands for the
jump to `end`. -/
def linkPad_loopback (accepts : Pad → Pad → Bool) (src sink : Pad) (g : Gst) :
    Option (Bool × Gst) :=
  match padParent g sink with
  | none => none
  | some parent =>
    match elemParent g parent with
    | none => none
    | some container =>
      let f := linkPad_insert container g
      let aux_sink : Pad := ⟨f.1, "sink"⟩
      let aux_src : Pad := ⟨f.1, "src"⟩
      let l1 := gst_pad_link accepts aux_src sink f.2
      if l1.1 = GstPadLinkReturn.GST_PAD_LINK_OK then
        let l2 := gst_pad_link accepts src aux_sink l1.2
        if l2.1 = GstPadLinkReturn.GST_PAD_LINK_OK then some (true, l2.2)
        else some (false, gst_pad_unlink aux_src sink l2.2)
      else some (false, l1.2)

/-- Lines 145-196 of `linkPad`: the loopback branch when the parents are the
same, the direct link otherwise. -/
def linkPad_attempt (accepts : Pad → Pad → Bool) (mediaSrc : MediaSourceImpl)
    (self : MediaSinkImpl) (src sink : Pad) (g : Gst) : Option (Bool × Gst) :=
  if mediaSrc.parent = self.parent then linkPad_loopback accepts src sink g
  else
    let l := gst_pad_link accepts src sink g
    some (decide (l.1 = GstPadLinkReturn.GST_PAD_LINK_OK), l.2)

/-- Lines 145-209 of `linkPad`. -/
def linkPad_connect (accepts : Pad → Pad → Bool) (mediaSrc : MediaSourceImpl) (src sink : Pad)
    (s : State) : Bool × State :=
  match linkPad_attempt accepts mediaSrc s.self src sink s.gst with
  | none => (false, s)
  | some (true, g) =>
    (true, { s with gst := g, self := { s.self with connectedSrc := some mediaSrc } })
  | some (false, g) =>
    (false, { s with gst := gst_element_release_request_pad s.self.element sink g })

/-- `MediaSinkImpl::linkPad`.  The result is `none` when the unlink of the
previous peer never returns. -/
def linkPad (accepts : Pad → Pad → Bool) (fires : Nat) (mediaSrc : MediaSourceImpl) (src : Pad)
    (s : State) : Option (Bool × State) :=
  match linkPad_resolve fires s with
  | none => none
  | some (sink, s1) => some (linkPad_connect accepts mediaSrc src sink s1)

/-! ## Auxiliary notions used in the statements -/

/-- The events a tear-down records. -/
def Event.isTeardown : Event → Bool
  | .unlink _ _ => true
  | .bin_remove _ _ => true
  | _ => false

/-- The pipeline `g'` comes from `g` by severing links, removing elements from
bins and recording these mutations only. -/
structure Shrinks (g g' : Gst) : Prop where
  pads : g'.pads = g.pads
  request : g'.request = g.request
  links : g'.links.Sublist g.links
  children : g'.children.Sublist g.children
  handlers : g'.handlers = g.handlers
  processed : g'.processed = g.processed
  nextElem : g'.nextElem = g.nextElem
  trace : ∃ t : List Event, g'.trace = t ++ g.trace ∧ ∀ e ∈ t, e.isTeardown = true

/-- The peer of `p`, when it has one, has `p` as its peer. -/
def mutualPeer (g : Gst) (p : Pad) : Bool :=
  match gst_pad_get_peer g p with
  | some peer => decide (gst_pad_get_peer g peer = some p)
  | none => true

/-- Number of links that have pad `p` at one end. -/
def peerCount (g : Gst) (p : Pad) : Nat :=
  (g.links.filter (touches p)).length

/-- Number of times `element` was removed from `bin` according to a trace. -/
def removals (bin element : Elem) (t : List Event) : Nat :=
  t.count (Event.bin_remove bin element)

/-- Number of times the probe handler was run for `pad` according to a trace. -/
def handlerRuns (pad : Pad) (t : List Event) : Nat :=
  t.count (Event.probe_handler pad)

/-! ## A concrete pipeline

One consuming endpoint (audio, element 10) and two producing pads (elements
11 and 12); the elements 10 and 11 are in the bin 50.  `producerP` and
`producerQ` have another parent than the endpoint, `producerL` the same one. -/

def producerP : MediaSourceImpl := ⟨1, some 200⟩

def producerL : MediaSourceImpl := ⟨2, some 100⟩

def producerQ : MediaSourceImpl := ⟨3, some 300⟩

def sinkA : MediaSinkImpl := ⟨7, MediaType.AUDIO, some 100, 10, none⟩

def padSink : Pad := ⟨10, "audio_sink"⟩

def padSrc : Pad := ⟨11, "src_0"⟩

def padSrcQ : Pad := ⟨12, "src_0"⟩

def acceptAll : Pad → Pad → Bool := fun _ _ => true

def acceptNone : Pad → Pad → Bool := fun _ _ => false

def pipe0 : Gst :=
  { pads := [padSink, padSrc], request := [], links := [],
    children := [(50, 10), (50, 11)], handlers := [], processed := [],
    nextElem := 1000, trace := [] }

/-- Nothing linked, nothing tracked; `producerP` has recorded the consumer. -/
def st0 : State :=
  { gst := pipe0, alive := [producerP, producerL, producerQ], connectedSinks := [(producerP, 7)],
    self := sinkA }

/-- The endpoint linked directly to `padSrc` and tracking `producerP`, as
`linkPad` leaves it from `st0`. -/
def stDirect : State :=
  { gst := { pipe0 with
      links := [(padSrc, padSink)],
      trace := [Event.link padSrc padSink GstPadLinkReturn.GST_PAD_LINK_OK] },
    alive := [producerP, producerL, producerQ],
    connectedSinks := [(producerP, 7)],
    self := { sinkA with connectedSrc := some producerP } }

/-- The pipeline of `stDirect` after the matching `unlink`, then linked again
to the same producing pad `padSrc`: that pad carries "processed" from the
first unlink. -/
def pipeRelinked : Gst :=
  { pipe0 with
    links := [(padSrc, padSink)],
    processed := [padSrc],
    trace := [Event.link padSrc padSink GstPadLinkReturn.GST_PAD_LINK_OK,
              Event.unlink padSrc padSink,
              Event.probe_handler padSrc,
              Event.link padSrc padSink GstPadLinkReturn.GST_PAD_LINK_OK] }

def stRelinked : State :=
  { gst := pipeRelinked, alive := [producerP, producerL, producerQ], connectedSinks := [],
    self := { sinkA with connectedSrc := some producerP } }

/-- The state `stDirect` once `producerP` has been destroyed without an
unlink: the pad is still linked, the weak reference has expired. -/
def stExpired : State :=
  { stDirect with alive := [producerL, producerQ] }

/-- The capsfilter `f` is in the bin `c` with both its pads linked: its "sink"
pad to `p`, its "src" pad to `q`, neither of them a pad of `f`; no other pad
of `f` is linked; to each of its two pads exactly the tear-down callback that
`linkPad` connects is connected, and none to `p` and `q`. -/
structure AdapterInserted (g : Gst) (f c : Elem) (p q : Pad) : Prop where
  pad_sink : (⟨f, "sink"⟩ : Pad) ∈ g.pads
  pad_src : (⟨f, "src"⟩ : Pad) ∈ g.pads
  peer_sink : gst_pad_get_peer g ⟨f, "sink"⟩ = some p
  peer_p : gst_pad_get_peer g p = some ⟨f, "sink"⟩
  peer_src : gst_pad_get_peer g ⟨f, "src"⟩ = some q
  peer_q : gst_pad_get_peer g q = some ⟨f, "src"⟩
  p_elem : p.elem ≠ f
  q_elem : q.elem ≠ f
  only : ∀ l ∈ g.links, (l.1.elem = f ∨ l.2.elem = f) →
    (touches ⟨f, "sink"⟩ l || touches ⟨f, "src"⟩ l) = true
  cb_sink : (g.handlers.filter (fun h => decide (h.1 = ⟨f, "sink"⟩))).map (fun h => h.2)
    = [Callback.sink_unlinked f]
  cb_src : (g.handlers.filter (fun h => decide (h.1 = ⟨f, "src"⟩))).map (fun h => h.2)
    = [Callback.src_unlinked f]
  cb_p : g.handlers.filter (fun h => decide (h.1 = p)) = []
  cb_q : g.handlers.filter (fun h => decide (h.1 = q)) = []
  parent : g.children.filter (fun x => decide (x.2 = f)) = [(c, f)]

/-- The pipeline once the capsfilter `f` between `p` and `q` is torn down,
the pair (`a`, `b`) having been unlinked first and (`a'`, `b'`) second. -/
def tornDown (g : Gst) (f c : Elem) (a b a' b' : Pad) : Gst :=
  { g with
    links := (g.links.filter (fun l => !(touches a l || touches b l))).filter
      (fun l => !(touches a' l || touches b' l)),
    children := g.children.filter (fun x => decide (x ≠ (c, f))),
    trace := Event.bin_remove c f :: Event.unlink a' b' :: Event.unlink a b :: g.trace }

/-- The element identity that `gst_element_factory_make` gives next is not in
use: no link, signal connection, bin entry or "processed" datum refers to it. -/
def FreshElem (g : Gst) : Prop :=
  (∀ l ∈ g.links, l.1.elem < g.nextElem ∧ l.2.elem < g.nextElem) ∧
  (∀ h ∈ g.handlers, h.1.elem < g.nextElem) ∧
  (∀ c ∈ g.children, c.2 < g.nextElem) ∧
  (∀ p ∈ g.processed, p.elem < g.nextElem)

/-- The loopback link of `producerL` through the capsfilter 1000, as `linkPad`
leaves it from `st0`. -/
def pipeLoop : Gst :=
  { pads := [⟨1000, "sink"⟩, ⟨1000, "src"⟩, padSink, padSrc],
    request := [],
    links := [(padSrc, ⟨1000, "sink"⟩), (⟨1000, "src"⟩, padSink)],
    children := [(50, 1000), (50, 10), (50, 11)],
    handlers := [(⟨1000, "sink"⟩, Callback.sink_unlinked 1000),
                 (⟨1000, "src"⟩, Callback.src_unlinked 1000)],
    processed := [],
    nextElem := 1001,
    trace := [Event.link padSrc ⟨1000, "sink"⟩ GstPadLinkReturn.GST_PAD_LINK_OK,
              Event.link ⟨1000, "src"⟩ padSink GstPadLinkReturn.GST_PAD_LINK_OK,
              Event.bin_add 50 1000] }

def stLoop : State :=
  { gst := pipeLoop, alive := [producerP, producerL, producerQ],
    connectedSinks := [(producerP, 7)],
    self := { sinkA with connectedSrc := some producerL } }

/-- The state `stExpired` in which the consuming pad is a request pad of the
element (it was requested by the earlier `linkPad`). -/
def stExpiredReq : State :=
  { stExpired with gst := { stExpired.gst with request := [padSink] } }

/-! # Properties -/

theorem Shrinks.refl (g : Gst) : Shrinks g g :=
  ⟨rfl, rfl, List.Sublist.refl _, List.Sublist.refl _, rfl, rfl, rfl, [], rfl, by simp⟩

theorem Shrinks.trans {a b c : Gst} (h1 : Shrinks a b) (h2 : Shrinks b c) : Shrinks a c := by
  obtain ⟨t1, e1, k1⟩ := h1.trace
  obtain ⟨t2, e2, k2⟩ := h2.trace
  refine ⟨h2.pads.trans h1.pads, h2.request.trans h1.request, h2.links.trans h1.links,
   h2.children.trans h1.children, h2.handlers.trans h1.handlers,
   h2.processed.trans h1.processed, h2.nextElem.trans h1.nextElem, t2 ++ t1, ?_, ?_⟩
  · rw [e2, e1, List.append_assoc]
  · intro e he
    rcases List.mem_append.mp he with h | h
    · exact k2 e h
    · exact k1 e h

theorem shrinks_foldl {α : Type} (f : Gst → α → Gst) (hf : ∀ g x, Shrinks g (f g x))
    (xs : List α) (g : Gst) : Shrinks g (xs.foldl f g) := by
  induction xs generalizing g with
  | nil => exact Shrinks.refl g
  | cons x xs ih => exact (hf g x).trans (ih (f g x))

theorem shrinks_clearPeers (a b : Pad) (g : Gst) : Shrinks g (clearPeers a b g) :=
  ⟨rfl, rfl, List.filter_sublist _, List.Sublist.refl _, rfl, rfl, rfl,
   [Event.unlink a b], rfl, by simp [Event.isTeardown]⟩

theorem shrinks_bin_remove (u : Pad → Pad → Gst → Gst) (hu : ∀ a b g, Shrinks g (u a b g))
    (bin e : Elem) (g : Gst) : Shrinks g (gst_bin_remove u bin e g) := by
  unfold gst_bin_remove
  have h1 := shrinks_foldl (fun acc (l : Pad × Pad) => u l.1 l.2 acc) (fun g x => hu x.1 x.2 g)
    (g.links.filter (fun l => decide (l.1.elem = e) || decide (l.2.elem = e))) g
  simp only
  split
  · exact h1.trans ⟨rfl, rfl, List.Sublist.refl _, List.filter_sublist _, rfl, rfl, rfl,
      [Event.bin_remove bin e], rfl, by simp [Event.isTeardown]⟩
  · exact h1

theorem shrinks_remove_from_parent (u : Pad → Pad → Gst → Gst)
    (hu : ∀ a b g, Shrinks g (u a b g)) (e : Elem) (g : Gst) :
    Shrinks g (remove_from_parent u e g) := by
  unfold remove_from_parent
  split
  · exact Shrinks.refl g
  · exact shrinks_bin_remove u hu _ _ g

theorem shrinks_runCallback (u : Pad → Pad → Gst → Gst)
    (hu : ∀ a b g, Shrinks g (u a b g)) (pad peer : Pad) (cb : Callback) (g : Gst) :
    Shrinks g (runCallback u pad peer cb g) := by
  cases cb with
  | sink_unlinked f =>
    simp only [runCallback, sink_unlinked]
    split
    · exact hu _ _ g
    · exact shrinks_remove_from_parent u hu f g
  | src_unlinked f =>
    simp only [runCallback, src_unlinked]
    split
    · exact hu _ _ g
    · exact shrinks_remove_from_parent u hu f g

theorem shrinks_emit (u : Pad → Pad → Gst → Gst)
    (hu : ∀ a b g, Shrinks g (u a b g)) (pad peer : Pad) (g : Gst) :
    Shrinks g (emit_unlinked u pad peer g) :=
  shrinks_foldl _ (fun g cb => shrinks_runCallback u hu pad peer cb g) _ g

theorem shrinks_unlinkF (n : Nat) : ∀ (a b : Pad) (g : Gst), Shrinks g (gst_pad_unlinkF n a b g) := by
  induction n with
  | zero => intro a b g; exact Shrinks.refl g
  | succ n ih =>
    intro a b g
    simp only [gst_pad_unlinkF]
    split
    · exact ((shrinks_clearPeers a b g).trans (shrinks_emit _ ih _ _ _)).trans
        (shrinks_emit _ ih _ _ _)
    · exact Shrinks.refl g

theorem shrinks_unlink (a b : Pad) (g : Gst) : Shrinks g (gst_pad_unlink a b g) :=
  shrinks_unlinkF _ a b g

/-! ### The bound on the nesting is never reached -/

theorem foldl_agree {α : Type} (k : Nat) (f f' : Gst → α → Gst)
    (hf : ∀ g x, Shrinks g (f g x))
    (hag : ∀ g x, g.links.length ≤ k → f g x = f' g x)
    (xs : List α) (g : Gst) (hg : g.links.length ≤ k) : xs.foldl f g = xs.foldl f' g := by
  induction xs generalizing g with
  | nil => rfl
  | cons x xs ih =>
    simp only [List.foldl_cons]
    rw [← hag g x hg]
    exact ih (f g x) (le_trans (hf g x).links.length_le hg)

theorem bin_remove_agree (k : Nat) (u u' : Pad → Pad → Gst → Gst)
    (hu : ∀ a b g, Shrinks g (u a b g))
    (hag : ∀ a b g, g.links.length ≤ k → u a b g = u' a b g)
    (bin e : Elem) (g : Gst) (hg : g.links.length ≤ k) :
    gst_bin_remove u bin e g = gst_bin_remove u' bin e g := by
  unfold gst_bin_remove
  rw [foldl_agree k (fun acc (l : Pad × Pad) => u l.1 l.2 acc)
    (fun acc (l : Pad × Pad) => u' l.1 l.2 acc) (fun g x => hu x.1 x.2 g)
    (fun g x h => hag x.1 x.2 g h) _ g hg]

theorem runCallback_agree (k : Nat) (u u' : Pad → Pad → Gst → Gst)
    (hu : ∀ a b g, Shrinks g (u a b g))
    (hag : ∀ a b g, g.links.length ≤ k → u a b g = u' a b g)
    (pad peer : Pad) (cb : Callback) (g : Gst) (hg : g.links.length ≤ k) :
    runCallback u pad peer cb g = runCallback u' pad peer cb g := by
  cases cb with
  | sink_unlinked f =>
    simp only [runCallback, sink_unlinked, remove_from_parent]
    split
    · exact hag _ _ g hg
    · split
      · rfl
      · exact bin_remove_agree k u u' hu hag _ _ g hg
  | src_unlinked f =>
    simp only [runCallback, src_unlinked, remove_from_parent]
    split
    · exact hag _ _ g hg
    · split
      · rfl
      · exact bin_remove_agree k u u' hu hag _ _ g hg

theorem emit_agree (k : Nat) (u u' : Pad → Pad → Gst → Gst)
    (hu : ∀ a b g, Shrinks g (u a b g))
    (hag : ∀ a b g, g.links.length ≤ k → u a b g = u' a b g)
    (pad peer : Pad) (g : Gst) (hg : g.links.length ≤ k) :
    emit_unlinked u pad peer g = emit_unlinked u' pad peer g :=
  foldl_agree k _ _ (fun g cb => shrinks_runCallback u hu pad peer cb g)
    (fun g cb h => runCallback_agree k u u' hu hag pad peer cb g h) _ g hg

theorem peer_none_of_nil (g : Gst) (p : Pad) (h : g.links = []) : gst_pad_get_peer g p = none := by
  simp [gst_pad_get_peer, h]

theorem clearPeers_length_lt (a b : Pad) (g : Gst) (h : gst_pad_get_peer g a = some b) :
    (clearPeers a b g).links.length < g.links.length := by
  simp only [clearPeers]
  unfold gst_pad_get_peer at h
  split at h
  · next l hl =>
    have hmem := List.mem_of_find?_eq_some hl
    have ht := List.find?_some hl
    apply List.length_filter_lt_length_iff_exists.mpr
    exact ⟨l, hmem, by simp [ht]⟩
  · cases h

theorem unlinkF_agree (n : Nat) : ∀ (m : Nat) (a b : Pad) (g : Gst),
    g.links.length ≤ n → g.links.length ≤ m →
    gst_pad_unlinkF n a b g = gst_pad_unlinkF m a b g := by
  induction n with
  | zero =>
    intro m a b g hn _
    have hnil : g.links = [] := List.length_eq_zero.mp (Nat.le_zero.mp hn)
    cases m with
    | zero => rfl
    | succ m => simp [gst_pad_unlinkF, peer_none_of_nil g a hnil]
  | succ n ih =>
    intro m a b g hn hm
    cases m with
    | zero =>
      have hnil : g.links = [] := List.length_eq_zero.mp (Nat.le_zero.mp hm)
      simp [gst_pad_unlinkF, peer_none_of_nil g a hnil]
    | succ m =>
      simp only [gst_pad_unlinkF]
      split
      · next hp =>
        have hlt := clearPeers_length_lt a b g hp
        have hag : ∀ a' b' h, h.links.length ≤ (clearPeers a b g).links.length →
            gst_pad_unlinkF n a' b' h = gst_pad_unlinkF m a' b' h :=
          fun a' b' h hh => ih m a' b' h (by omega) (by omega)
        rw [emit_agree _ _ _ (shrinks_unlinkF n) hag a b _ (le_refl _)]
        exact emit_agree _ _ _ (shrinks_unlinkF n) hag b a _
          (shrinks_emit _ (shrinks_unlinkF m) a b _).links.length_le
      · rfl

/-- Any bound at least the number of links gives the result of `gst_pad_unlink`. -/
theorem gst_pad_unlinkF_eq (n : Nat) (a b : Pad) (g : Gst) (h : g.links.length ≤ n) :
    gst_pad_unlinkF n a b g = gst_pad_unlink a b g :=
  unlinkF_agree n _ a b g h (le_refl _)


/-! ### Peers -/

theorem peer_none_iff (g : Gst) (p : Pad) :
    gst_pad_get_peer g p = none ↔ ∀ l ∈ g.links, touches p l = false := by
  unfold gst_pad_get_peer
  split
  · next l hl =>
    simp only [reduceCtorEq, false_iff]
    intro h
    have := h l (List.mem_of_find?_eq_some hl)
    simp [List.find?_some hl] at this
  · next hl =>
    simp only [true_iff]
    intro l hmem
    have := List.find?_eq_none.mp hl l hmem
    simpa using this

theorem peer_none_of_sublist {g g' : Gst} (h : g'.links.Sublist g.links) (p : Pad)
    (hp : gst_pad_get_peer g p = none) : gst_pad_get_peer g' p = none :=
  (peer_none_iff g' p).mpr (fun l hl => (peer_none_iff g p).mp hp l (h.subset hl))

theorem peer_clearPeers_left (a b : Pad) (g : Gst) :
    gst_pad_get_peer (clearPeers a b g) a = none := by
  rw [peer_none_iff]
  intro l hl
  simp only [clearPeers, List.mem_filter] at hl
  have := hl.2
  simp only [Bool.not_eq_true', Bool.or_eq_false_iff] at this
  exact this.1

theorem peer_clearPeers_right (a b : Pad) (g : Gst) :
    gst_pad_get_peer (clearPeers a b g) b = none := by
  rw [peer_none_iff]
  intro l hl
  simp only [clearPeers, List.mem_filter] at hl
  have := hl.2
  simp only [Bool.not_eq_true', Bool.or_eq_false_iff] at this
  exact this.2

theorem links_pos_of_peer {g : Gst} {a b : Pad} (h : gst_pad_get_peer g a = some b) :
    0 < g.links.length := by
  cases hl : g.links with
  | nil => rw [peer_none_of_nil g a hl] at h; cases h
  | cons x xs => simp

/-- A successful `gst_pad_unlink` leaves both pads without peer, whatever the
signal handlers do. -/
theorem unlink_severs (a b : Pad) (g : Gst) (h : gst_pad_get_peer g a = some b) :
    gst_pad_get_peer (gst_pad_unlink a b g) a = none ∧
    gst_pad_get_peer (gst_pad_unlink a b g) b = none := by
  have hpos := links_pos_of_peer h
  unfold gst_pad_unlink
  obtain ⟨n, hn⟩ : ∃ n, g.links.length = n + 1 := ⟨g.links.length - 1, by omega⟩
  rw [hn]
  simp only [gst_pad_unlinkF, h, if_true]
  have hs := (shrinks_emit (gst_pad_unlinkF n) (shrinks_unlinkF n) a b (clearPeers a b g)).trans
    (shrinks_emit (gst_pad_unlinkF n) (shrinks_unlinkF n) b a _)
  exact ⟨peer_none_of_sublist hs.links a (peer_clearPeers_left a b g),
    peer_none_of_sublist hs.links b (peer_clearPeers_right a b g)⟩

/-- When the peer of `a` is not `b`, `gst_pad_unlink` does nothing. -/
theorem unlink_not_linked (a b : Pad) (g : Gst) (h : gst_pad_get_peer g a ≠ some b) :
    gst_pad_unlink a b g = g := by
  unfold gst_pad_unlink
  cases g.links.length with
  | zero => rfl
  | succ n => simp [gst_pad_unlinkF, h]


/-! ### The blocking probe -/

theorem pad_blocked_adaptor_ret {κ : Type} (pad : Pad) (handler : Pad → Gst × κ → Gst × κ)
    (st : Gst × κ) :
    (pad_blocked_adaptor pad handler st).1 = GstPadProbeReturn.GST_PAD_PROBE_REMOVE := by
  unfold pad_blocked_adaptor
  split <;> rfl

theorem fireProbe_processed {κ : Type} (pad : Pad) (handler : Pad → Gst × κ → Gst × κ)
    (n : Nat) (st : Gst × κ) (h : pad ∈ st.1.processed) : fireProbe pad handler n st = st := by
  induction n with
  | zero => rfl
  | succ n ih => simp only [fireProbe, pad_blocked_adaptor, h, if_true]; exact ih

theorem blockedLambda_processed (sinkPad pad : Pad) (st : Gst × Wait) :
    (blockedLambda sinkPad pad st).1.processed = st.1.processed := by
  unfold blockedLambda
  split
  · rfl
  · exact (shrinks_unlink pad sinkPad st.1).processed

theorem adaptor_marks (pad sinkPad : Pad) (st : Gst × Wait) :
    pad ∈ (pad_blocked_adaptor pad (blockedLambda sinkPad) st).2.1.processed := by
  unfold pad_blocked_adaptor
  split
  · next h => exact h
  · rw [blockedLambda_processed]; simp [setProcessed]

/-- After the first run of the probe callback, further runs change nothing. -/
theorem fireProbe_succ (pad sinkPad : Pad) (n : Nat) (st : Gst × Wait) :
    fireProbe pad (blockedLambda sinkPad) (n + 1) st =
      (pad_blocked_adaptor pad (blockedLambda sinkPad) st).2 := by
  simp only [fireProbe]
  exact fireProbe_processed pad _ n _ (adaptor_marks pad sinkPad st)

theorem wait_of_fresh (fires : Nat) (sinkPad peer : Pad) (g : Gst)
    (hpeer : gst_pad_get_peer g sinkPad = some peer) (hfresh : peer ∉ g.processed) :
    unlinkUnchecked_wait (fires + 1) sinkPad g =
      some (gst_pad_unlink peer sinkPad (setProcessed peer g)) := by
  simp [unlinkUnchecked_wait, hpeer, fireProbe_succ, pad_blocked_adaptor, hfresh, blockedLambda]

theorem wait_of_processed (fires : Nat) (sinkPad peer : Pad) (g : Gst)
    (hpeer : gst_pad_get_peer g sinkPad = some peer) (hproc : peer ∈ g.processed) :
    unlinkUnchecked_wait fires sinkPad g = none := by
  simp [unlinkUnchecked_wait, hpeer, fireProbe_processed peer _ fires (g, _) hproc]

theorem wait_of_unlinked (fires : Nat) (sinkPad : Pad) (g : Gst)
    (hpeer : gst_pad_get_peer g sinkPad = none) :
    unlinkUnchecked_wait fires sinkPad g = some g := by
  simp [unlinkUnchecked_wait, hpeer]

theorem wait_zero (sinkPad peer : Pad) (g : Gst)
    (hpeer : gst_pad_get_peer g sinkPad = some peer) :
    unlinkUnchecked_wait 0 sinkPad g = none := by
  simp [unlinkUnchecked_wait, hpeer, fireProbe]

theorem peer_setProcessed (pad p : Pad) (g : Gst) :
    gst_pad_get_peer (setProcessed pad g) p = gst_pad_get_peer g p := rfl

/-- What a returning wait leaves: the pipeline it started from, or the one
the handler produced on a peer that had not been processed. -/
theorem wait_some (fires : Nat) (sinkPad : Pad) (g g1 : Gst)
    (h : unlinkUnchecked_wait fires sinkPad g = some g1) :
    (gst_pad_get_peer g sinkPad = none ∧ g1 = g) ∨
    (∃ peer, gst_pad_get_peer g sinkPad = some peer ∧ peer ∉ g.processed ∧ 0 < fires ∧
      g1 = gst_pad_unlink peer sinkPad (setProcessed peer g)) := by
  cases hp : gst_pad_get_peer g sinkPad with
  | none =>
    rw [wait_of_unlinked fires sinkPad g hp] at h
    exact Or.inl ⟨rfl, (Option.some.inj h).symm⟩
  | some peer =>
    right
    by_cases hproc : peer ∈ g.processed
    · rw [wait_of_processed fires sinkPad peer g hp hproc] at h; cases h
    · cases fires with
      | zero => rw [wait_zero sinkPad peer g hp] at h; cases h
      | succ n =>
        rw [wait_of_fresh n sinkPad peer g hp hproc] at h
        exact ⟨peer, rfl, hproc, Nat.succ_pos n, (Option.some.inj h).symm⟩

theorem release_links_sublist (e : Elem) (pad : Pad) (g : Gst) :
    (gst_element_release_request_pad e pad g).links.Sublist g.links := by
  unfold gst_element_release_request_pad gst_element_remove_pad
  split
  · simp only
    split
    · exact (shrinks_unlink _ _ g).links
    · exact List.Sublist.refl _
  · exact List.Sublist.refl _

theorem release_children_sublist (e : Elem) (pad : Pad) (g : Gst) :
    (gst_element_release_request_pad e pad g).children.Sublist g.children := by
  unfold gst_element_release_request_pad gst_element_remove_pad
  split
  · simp only
    split
    · exact (shrinks_unlink _ _ g).children
    · exact List.Sublist.refl _
  · exact List.Sublist.refl _

theorem wait_links_sublist (fires : Nat) (sinkPad : Pad) (g g1 : Gst)
    (h : unlinkUnchecked_wait fires sinkPad g = some g1) : g1.links.Sublist g.links := by
  rcases wait_some fires sinkPad g g1 h with ⟨_, rfl⟩ | ⟨peer, _, _, _, rfl⟩
  · exact List.Sublist.refl _
  · exact (shrinks_unlink peer sinkPad (setProcessed peer g)).links

theorem wait_children_sublist (fires : Nat) (sinkPad : Pad) (g g1 : Gst)
    (h : unlinkUnchecked_wait fires sinkPad g = some g1) : g1.children.Sublist g.children := by
  rcases wait_some fires sinkPad g g1 h with ⟨_, rfl⟩ | ⟨peer, _, _, _, rfl⟩
  · exact List.Sublist.refl _
  · exact (shrinks_unlink peer sinkPad (setProcessed peer g)).children

/-- A returning wait leaves the pad without peer, provided the link was mutual. -/
theorem wait_severs (fires : Nat) (sinkPad : Pad) (g g1 : Gst)
    (hmut : mutualPeer g sinkPad = true)
    (h : unlinkUnchecked_wait fires sinkPad g = some g1) :
    gst_pad_get_peer g1 sinkPad = none := by
  rcases wait_some fires sinkPad g g1 h with ⟨hp, rfl⟩ | ⟨peer, hp, _, _, rfl⟩
  · exact hp
  · have hm : gst_pad_get_peer g peer = some sinkPad := by
      simpa [mutualPeer, hp] using hmut
    exact (unlink_severs peer sinkPad (setProcessed peer g) hm).2

theorem unlinkUnchecked_links_sublist (self : MediaSinkImpl) (fires : Nat) (sink : Option Pad)
    (g g' : Gst) (h : unlinkUnchecked self fires sink g = some g') : g'.links.Sublist g.links := by
  unfold unlinkUnchecked at h
  split at h
  · cases h; exact List.Sublist.refl _
  · split at h
    · cases h
    · next g1 hw =>
      have h1 := wait_links_sublist fires _ g g1 hw
      split at h
      · cases h; exact (release_links_sublist _ _ g1).trans h1
      · cases h; exact h1

theorem unlinkUnchecked_children_sublist (self : MediaSinkImpl) (fires : Nat)
    (sink : Option Pad) (g g' : Gst) (h : unlinkUnchecked self fires sink g = some g') :
    g'.children.Sublist g.children := by
  unfold unlinkUnchecked at h
  split at h
  · cases h; exact List.Sublist.refl _
  · split at h
    · cases h
    · next g1 hw =>
      have h1 := wait_children_sublist fires _ g g1 hw
      split at h
      · cases h; exact (release_children_sublist _ _ g1).trans h1
      · cases h; exact h1



theorem release_peer_none (e : Elem) (pad p : Pad) (g : Gst)
    (h : gst_pad_get_peer g p = none) :
    gst_pad_get_peer (gst_element_release_request_pad e pad g) p = none :=
  peer_none_of_sublist (release_links_sublist e pad g) p h

theorem count_teardown_handler (pad : Pad) (t : List Event)
    (h : ∀ e ∈ t, e.isTeardown = true) : t.count (Event.probe_handler pad) = 0 := by
  rw [List.count_eq_zero]
  intro hmem
  have := h _ hmem
  simp [Event.isTeardown] at this

theorem handlerRuns_shrinks {g g' : Gst} (h : Shrinks g g') (pad : Pad) :
    handlerRuns pad g'.trace = handlerRuns pad g.trace := by
  obtain ⟨t, e, k⟩ := h.trace
  simp [handlerRuns, e, List.count_append, count_teardown_handler pad t k]


/-! ### Linking -/

theorem is_linked_false_iff (g : Gst) (p : Pad) :
    gst_pad_is_linked g p = false ↔ gst_pad_get_peer g p = none := by
  unfold gst_pad_is_linked
  cases gst_pad_get_peer g p <;> simp

theorem link_ok_iff (accepts : Pad → Pad → Bool) (a b : Pad) (g : Gst) :
    (gst_pad_link accepts a b g).1 = GstPadLinkReturn.GST_PAD_LINK_OK ↔
      gst_pad_get_peer g a = none ∧ gst_pad_get_peer g b = none ∧ accepts a b = true := by
  unfold gst_pad_link
  by_cases h1 : gst_pad_is_linked g a = true
  · have : gst_pad_get_peer g a ≠ none := by
      intro h; rw [(is_linked_false_iff g a).mpr h] at h1; cases h1
    simp [h1, this]
  · by_cases h2 : gst_pad_is_linked g b = true
    · have : gst_pad_get_peer g b ≠ none := by
        intro h; rw [(is_linked_false_iff g b).mpr h] at h2; cases h2
      simp [h2, this]
    · have e1 := (is_linked_false_iff g a).mp (by simpa using h1)
      have e2 := (is_linked_false_iff g b).mp (by simpa using h2)
      by_cases h3 : accepts a b = true <;> simp [h1, h2, h3, e1, e2]

theorem link_links_ok (accepts : Pad → Pad → Bool) (a b : Pad) (g : Gst)
    (h : (gst_pad_link accepts a b g).1 = GstPadLinkReturn.GST_PAD_LINK_OK) :
    (gst_pad_link accepts a b g).2.links = (a, b) :: g.links := by
  unfold gst_pad_link at h ⊢
  split at h
  · cases h
  · split at h
    · next h1 h2 => simp [h1, h2]
    · cases h

theorem link_links_fail (accepts : Pad → Pad → Bool) (a b : Pad) (g : Gst)
    (h : (gst_pad_link accepts a b g).1 ≠ GstPadLinkReturn.GST_PAD_LINK_OK) :
    (gst_pad_link accepts a b g).2.links = g.links := by
  unfold gst_pad_link at h ⊢
  split
  · rfl
  · split
    · next h1 h2 => simp [h1, h2] at h
    · rfl

theorem link_frame (accepts : Pad → Pad → Bool) (a b : Pad) (g : Gst) :
    (gst_pad_link accepts a b g).2.children = g.children ∧
    (gst_pad_link accepts a b g).2.pads = g.pads ∧
    (gst_pad_link accepts a b g).2.request = g.request ∧
    (gst_pad_link accepts a b g).2.handlers = g.handlers ∧
    (gst_pad_link accepts a b g).2.processed = g.processed ∧
    (gst_pad_link accepts a b g).2.nextElem = g.nextElem := by
  unfold gst_pad_link
  split
  · simp
  · split <;> simp

theorem insert_links (container : Elem) (g : Gst) :
    (linkPad_insert container g).2.links = g.links := rfl

theorem sink_pad (s : State) : (linkPad_sink s).1 = ⟨s.self.element, getPadName s.self⟩ := by
  unfold linkPad_sink gst_element_get_static_pad gst_element_get_request_pad
  split
  · next hh => split at hh <;> simp_all
  · rfl

theorem sink_links (s : State) : (linkPad_sink s).2.links = s.gst.links := by
  unfold linkPad_sink gst_element_get_request_pad
  split <;> rfl

theorem sink_children (s : State) : (linkPad_sink s).2.children = s.gst.children := by
  unfold linkPad_sink gst_element_get_request_pad
  split <;> rfl

theorem sink_peer (s : State) (p : Pad) :
    gst_pad_get_peer (linkPad_sink s).2 p = gst_pad_get_peer s.gst p := by
  unfold gst_pad_get_peer
  rw [sink_links]

theorem unlink_frame (fires : Nat) (m : Option MediaSourceImpl) (sink : Option Pad)
    (s s' : State) (h : unlink fires m sink s = some s') :
    s'.self = s.self ∧ s'.alive = s.alive ∧ s'.gst.links.Sublist s.gst.links ∧
    s'.gst.children.Sublist s.gst.children := by
  unfold unlink at h
  split at h
  · split at h
    · split at h
      · cases h
      · next g hg =>
        cases h
        exact ⟨rfl, rfl, unlinkUnchecked_links_sublist _ _ _ _ _ hg,
          unlinkUnchecked_children_sublist _ _ _ _ _ hg⟩
    · cases h; exact ⟨rfl, rfl, List.Sublist.refl _, List.Sublist.refl _⟩
  · cases h; exact ⟨rfl, rfl, List.Sublist.refl _, List.Sublist.refl _⟩

theorem resolve_pad (fires : Nat) (s : State) (sink : Pad) (s1 : State)
    (h : linkPad_resolve fires s = some (sink, s1)) :
    sink = ⟨s.self.element, getPadName s.self⟩ := by
  unfold linkPad_resolve at h
  simp only at h
  split at h
  · split at h
    · cases h
    · cases h; exact sink_pad s
  · cases h; exact sink_pad s

theorem resolve_frame (fires : Nat) (s : State) (sink : Pad) (s1 : State)
    (h : linkPad_resolve fires s = some (sink, s1)) :
    s1.self = s.self ∧ s1.alive = s.alive ∧ s1.gst.links.Sublist s.gst.links ∧
    s1.gst.children.Sublist s.gst.children := by
  unfold linkPad_resolve at h
  simp only at h
  split at h
  · split at h
    · cases h
    · next s2 hu =>
      cases h
      have hf := unlink_frame _ _ _ _ _ hu
      refine ⟨hf.1, hf.2.1, ?_, ?_⟩
      · have := hf.2.2.1; simpa [sink_links] using this
      · have := hf.2.2.2; simpa [sink_children] using this
  · cases h
    exact ⟨rfl, rfl, by simp [sink_links], by simp [sink_children]⟩

/-- When the pad had no peer, the resolution only looks the pad up. -/
theorem resolve_unlinked (fires : Nat) (s : State)
    (h : gst_pad_get_peer s.gst ⟨s.self.element, getPadName s.self⟩ = none) :
    linkPad_resolve fires s = some ((linkPad_sink s).1, { s with gst := (linkPad_sink s).2 }) := by
  unfold linkPad_resolve
  have : gst_pad_is_linked (linkPad_sink s).2 (linkPad_sink s).1 = false := by
    rw [is_linked_false_iff, sink_peer, sink_pad]; exact h
  simp [this]

/-- When nothing live is tracked, the resolution only looks the pad up. -/
theorem resolve_stale (fires : Nat) (s : State) (h : lock s = none) :
    linkPad_resolve fires s = some ((linkPad_sink s).1, { s with gst := (linkPad_sink s).2 }) := by
  unfold linkPad_resolve
  simp only
  have hl : lock { s with gst := (linkPad_sink s).2 } = none := h
  split
  · simp [unlink, hl]
  · rfl

theorem unlink_head_sublist (a b : Pad) (g : Gst) (L : List (Pad × Pad))
    (hl : g.links = (a, b) :: L) : (gst_pad_unlink a b g).links.Sublist L := by
  have hp : gst_pad_get_peer g a = some b := by simp [gst_pad_get_peer, hl, touches]
  unfold gst_pad_unlink
  rw [hl, List.length_cons]
  simp only [gst_pad_unlinkF, hp, if_true]
  have hs := (shrinks_emit (gst_pad_unlinkF L.length) (shrinks_unlinkF _) a b
    (clearPeers a b g)).trans (shrinks_emit (gst_pad_unlinkF L.length) (shrinks_unlinkF _) b a _)
  refine hs.links.trans ?_
  simp only [clearPeers, hl]
  rw [List.filter_cons_of_neg (by simp [touches])]
  exact List.filter_sublist _

theorem release_unlinked (e : Elem) (pad : Pad) (g : Gst)
    (h : gst_pad_get_peer g pad = none) :
    (gst_element_release_request_pad e pad g).links = g.links ∧
    (gst_element_release_request_pad e pad g).children = g.children := by
  have hf : g.links.find? (touches pad) = none := by
    unfold gst_pad_get_peer at h
    split at h
    · cases h
    · assumption
  unfold gst_element_release_request_pad gst_element_remove_pad
  split <;> simp [hf]

theorem peerCount_sublist {g g' : Gst} (h : g'.links.Sublist g.links) (p : Pad) :
    peerCount g' p ≤ peerCount g p :=
  (h.filter (touches p)).length_le

theorem peerCount_of_unlinked (g : Gst) (p : Pad) (h : gst_pad_get_peer g p = none) :
    peerCount g p = 0 := by
  unfold peerCount
  rw [List.length_eq_zero, List.filter_eq_nil_iff]
  intro l hl
  simp [(peer_none_iff g p).mp h l hl]

theorem peerCount_link (accepts : Pad → Pad → Bool) (a b : Pad) (g : Gst) (p : Pad)
    (h : peerCount g p ≤ 1) : peerCount (gst_pad_link accepts a b g).2 p ≤ 1 := by
  by_cases hok : (gst_pad_link accepts a b g).1 = GstPadLinkReturn.GST_PAD_LINK_OK
  · have hl := link_links_ok accepts a b g hok
    have hp := (link_ok_iff accepts a b g).mp hok
    unfold peerCount at h ⊢
    rw [hl]
    by_cases ht : touches p (a, b) = true
    · rw [List.filter_cons_of_pos ht]
      have hz : peerCount g p = 0 := by
        simp only [touches, Bool.or_eq_true, decide_eq_true_eq] at ht
        rcases ht with rfl | rfl
        · exact peerCount_of_unlinked g _ hp.1
        · exact peerCount_of_unlinked g _ hp.2.1
      unfold peerCount at hz
      simp [hz]
    · rw [List.filter_cons_of_neg ht]
      exact h
  · unfold peerCount at h ⊢
    rw [link_links_fail accepts a b g hok]
    exact h

theorem attempt_peerCount (accepts : Pad → Pad → Bool) (mediaSrc : MediaSourceImpl)
    (self : MediaSinkImpl) (src sink : Pad) (g0 : Gst) (p : Pad) (b : Bool) (g : Gst)
    (h : peerCount g0 p ≤ 1)
    (hr : linkPad_attempt accepts mediaSrc self src sink g0 = some (b, g)) :
    peerCount g p ≤ 1 := by
  unfold linkPad_attempt at hr
  split at hr
  · unfold linkPad_loopback at hr
    split at hr
    · cases hr
    · split at hr
      · cases hr
      · next container _ =>
        have h0 : peerCount (linkPad_insert container g0).2 p ≤ 1 := h
        have h1 := peerCount_link accepts ⟨(linkPad_insert container g0).1, "src"⟩ sink _ p h0
        have h2 := peerCount_link accepts src ⟨(linkPad_insert container g0).1, "sink"⟩ _ p h1
        simp only at hr
        split at hr
        · split at hr
          · cases hr; exact h2
          · cases hr
            exact le_trans (peerCount_sublist (shrinks_unlink _ _ _).links p) h2
        · cases hr; exact h1
  · cases hr
    exact peerCount_link accepts src sink _ p h

theorem connect_peerCount (accepts : Pad → Pad → Bool) (mediaSrc : MediaSourceImpl)
    (src sink : Pad) (s1 : State) (p : Pad) (h : peerCount s1.gst p ≤ 1) :
    peerCount (linkPad_connect accepts mediaSrc src sink s1).2.gst p ≤ 1 := by
  unfold linkPad_connect
  split
  · exact h
  · next g hr => exact attempt_peerCount _ _ _ _ _ _ _ _ _ h hr
  · next g hr =>
    exact le_trans (peerCount_sublist (release_links_sublist _ _ g) p)
      (attempt_peerCount _ _ _ _ _ _ _ _ _ h hr)

/-- A link attempt on a consuming pad that has a peer makes `linkPad` fail. -/
theorem connect_false_of_linked (accepts : Pad → Pad → Bool) (mediaSrc : MediaSourceImpl)
    (src sink : Pad) (s1 : State) (h : gst_pad_get_peer s1.gst sink ≠ none) :
    (linkPad_connect accepts mediaSrc src sink s1).1 = false := by
  unfold linkPad_connect
  split
  · rfl
  · next g hr =>
    exfalso
    unfold linkPad_attempt at hr
    split at hr
    · unfold linkPad_loopback at hr
      split at hr
      · cases hr
      · split at hr
        · cases hr
        · next container _ =>
          have hno : (gst_pad_link accepts ⟨(linkPad_insert container s1.gst).1, "src"⟩ sink
              (linkPad_insert container s1.gst).2).1 ≠ GstPadLinkReturn.GST_PAD_LINK_OK := by
            intro hok
            exact h ((link_ok_iff _ _ _ _).mp hok).2.1
          simp only [hno, if_false] at hr
          cases hr
    · have hno : (gst_pad_link accepts src sink s1.gst).1 ≠ GstPadLinkReturn.GST_PAD_LINK_OK := by
        intro hok
        exact h ((link_ok_iff _ _ _ _).mp hok).2.1
      simp [hno] at hr
  · rfl

/-! ### Tear-down of the capsfilter -/

theorem find_filter_of_pos {α : Type} (P q : α → Bool) (L : List α) (l : α)
    (h : L.find? q = some l) (hP : P l = true) : (L.filter P).find? q = some l := by
  induction L with
  | nil => cases h
  | cons x xs ih =>
    by_cases hq : q x = true
    · have hx : x = l := by simpa [List.find?_cons, hq] using h
      subst hx
      simp [List.filter_cons, hP, List.find?_cons, hq]
    · have hrest : xs.find? q = some l := by simpa [List.find?_cons, hq] using h
      by_cases hPx : P x = true
      · simp [List.filter_cons, hPx, List.find?_cons, hq, ih hrest]
      · simp [List.filter_cons, hPx, ih hrest]

theorem peer_clearPeers_other (a b x y : Pad) (g : Gst) (h : gst_pad_get_peer g x = some y)
    (hxa : x ≠ a) (hxb : x ≠ b) (hya : y ≠ a) (hyb : y ≠ b) :
    gst_pad_get_peer (clearPeers a b g) x = some y := by
  unfold gst_pad_get_peer at h ⊢
  split at h
  · next l hl =>
    have ht := List.find?_some hl
    simp only [touches, Bool.or_eq_true, decide_eq_true_eq] at ht
    simp only [Option.some.injEq] at h
    have hP : (fun l => !(touches a l || touches b l)) l = true := by
      simp only [touches, Bool.not_eq_true', Bool.or_eq_false_iff, decide_eq_false_iff_not]
      by_cases h1 : l.1 = x
      · rw [if_pos h1] at h
        rw [h1, h]
        exact ⟨⟨hxa, hya⟩, ⟨hxb, hyb⟩⟩
      · rw [if_neg h1] at h
        have h2 : l.2 = x := by rcases ht with h' | h'; exact absurd h' h1; exact h'
        rw [h2, h]
        exact ⟨⟨hya, hxa⟩, ⟨hyb, hxb⟩⟩
    have := find_filter_of_pos (fun l => !(touches a l || touches b l)) (touches x) g.links l hl hP
    simp only [clearPeers, this, h]
  · cases h

theorem emit_nil (u : Pad → Pad → Gst → Gst) (pad peer : Pad) (g : Gst)
    (h : g.handlers.filter (fun h => decide (h.1 = pad)) = []) :
    emit_unlinked u pad peer g = g := by
  simp [emit_unlinked, h]

theorem emit_single (u : Pad → Pad → Gst → Gst) (pad peer : Pad) (g : Gst) (cb : Callback)
    (h : (g.handlers.filter (fun h => decide (h.1 = pad))).map (fun h => h.2) = [cb]) :
    emit_unlinked u pad peer g = runCallback u pad peer cb g := by
  simp [emit_unlinked, h]

theorem unlinkF_succ (n : Nat) (a b : Pad) (g : Gst) (h : gst_pad_get_peer g a = some b) :
    gst_pad_unlinkF (n + 1) a b g =
      emit_unlinked (gst_pad_unlinkF n) b a
        (emit_unlinked (gst_pad_unlinkF n) a b (clearPeers a b g)) := by
  simp [gst_pad_unlinkF, h]

theorem find_eq_head_filter {α : Type} (q : α → Bool) (L : List α) :
    L.find? q = (L.filter q).head? := by
  induction L with
  | nil => rfl
  | cons x xs ih =>
    by_cases hq : q x = true
    · rw [List.find?_cons_of_pos _ hq, List.filter_cons_of_pos hq]; rfl
    · rw [List.find?_cons_of_neg _ hq, List.filter_cons_of_neg hq]; exact ih

theorem elemParent_of_filter (g : Gst) (f c : Elem)
    (h : g.children.filter (fun x => decide (x.2 = f)) = [(c, f)]) : elemParent g f = some c := by
  unfold elemParent
  have : g.children.find? (fun x => decide (x.2 = f)) = some (c, f) := by
    rw [find_eq_head_filter, h]; rfl
  rw [this]

theorem mem_of_filter_single (g : Gst) (f c : Elem)
    (h : g.children.filter (fun x => decide (x.2 = f)) = [(c, f)]) : (c, f) ∈ g.children := by
  have : (c, f) ∈ g.children.filter (fun x => decide (x.2 = f)) := by rw [h]; simp
  exact (List.mem_filter.mp this).1

theorem elemParent_removed (cs : List (Elem × Elem)) (g : Gst) (f c : Elem)
    (h : g.children.filter (fun x => decide (x.2 = f)) = [(c, f)])
    (hcs : cs = g.children.filter (fun x => decide (x ≠ (c, f)))) (g' : Gst)
    (hg' : g'.children = cs) : elemParent g' f = none := by
  unfold elemParent
  have : g'.children.find? (fun x => decide (x.2 = f)) = none := by
    rw [List.find?_eq_none]
    intro x hx
    rw [hg', hcs, List.mem_filter] at hx
    simp only [decide_eq_true_eq]
    intro hx2
    have hm : x ∈ g.children.filter (fun x => decide (x.2 = f)) :=
      List.mem_filter.mpr ⟨hx.1, by simpa using hx2⟩
    rw [h] at hm
    simp at hm
    simp [hm] at hx
  rw [this]

/-- `gst_bin_remove` of an element none of whose pads is linked. -/
theorem bin_remove_unlinked (u : Pad → Pad → Gst → Gst) (bin e : Elem) (g : Gst)
    (hno : g.links.filter (fun l => decide (l.1.elem = e) || decide (l.2.elem = e)) = [])
    (hin : (bin, e) ∈ g.children) :
    gst_bin_remove u bin e g =
      { g with children := g.children.filter (fun c => decide (c ≠ (bin, e))),
               trace := Event.bin_remove bin e :: g.trace } := by
  simp [gst_bin_remove, hno, hin]


theorem src_unlinked_forward (u : Pad → Pad → Gst → Gst) (pad peer : Pad) (f : Elem) (g : Gst)
    (x : Pad) (hpad : (⟨f, "sink"⟩ : Pad) ∈ g.pads)
    (hpeer : gst_pad_get_peer g ⟨f, "sink"⟩ = some x) :
    src_unlinked u pad peer f g = u x ⟨f, "sink"⟩ g := by
  simp [src_unlinked, gst_element_get_static_pad, hpad, hpeer]

theorem src_unlinked_remove (u : Pad → Pad → Gst → Gst) (pad peer : Pad) (f : Elem) (g : Gst)
    (hpeer : gst_pad_get_peer g ⟨f, "sink"⟩ = none) :
    src_unlinked u pad peer f g = remove_from_parent u f g := by
  have hb : ((gst_element_get_static_pad g f "sink").bind (fun a =>
      (gst_pad_get_peer g a).map (fun b => (a, b)))) = none := by
    unfold gst_element_get_static_pad
    split <;> simp [hpeer]
  unfold src_unlinked
  rw [hb]

theorem sink_unlinked_forward (u : Pad → Pad → Gst → Gst) (pad peer : Pad) (f : Elem) (g : Gst)
    (x : Pad) (hpad : (⟨f, "src"⟩ : Pad) ∈ g.pads)
    (hpeer : gst_pad_get_peer g ⟨f, "src"⟩ = some x) :
    sink_unlinked u pad peer f g = u ⟨f, "src"⟩ x g := by
  simp [sink_unlinked, gst_element_get_static_pad, hpad, hpeer]

theorem sink_unlinked_remove (u : Pad → Pad → Gst → Gst) (pad peer : Pad) (f : Elem) (g : Gst)
    (hpeer : gst_pad_get_peer g ⟨f, "src"⟩ = none) :
    sink_unlinked u pad peer f g = remove_from_parent u f g := by
  have hb : ((gst_element_get_static_pad g f "src").bind (fun a =>
      (gst_pad_get_peer g a).map (fun b => (a, b)))) = none := by
    unfold gst_element_get_static_pad
    split <;> simp [hpeer]
  unfold sink_unlinked
  rw [hb]

theorem AdapterInserted.distinct {g : Gst} {f c : Elem} {p q : Pad}
    (h : AdapterInserted g f c p q) :
    p ≠ ⟨f, "sink"⟩ ∧ p ≠ ⟨f, "src"⟩ ∧ q ≠ ⟨f, "sink"⟩ ∧ q ≠ ⟨f, "src"⟩ ∧ p ≠ q ∧
    (⟨f, "sink"⟩ : Pad) ≠ ⟨f, "src"⟩ := by
  refine ⟨?_, ?_, ?_, ?_, ?_, ?_⟩
  · intro e; exact h.p_elem (by rw [e])
  · intro e; exact h.p_elem (by rw [e])
  · intro e; exact h.q_elem (by rw [e])
  · intro e; exact h.q_elem (by rw [e])
  · intro e
    have h1 := h.peer_p
    rw [e, h.peer_q] at h1
    simp at h1
  · simp

/-- Once both links of the capsfilter are cleared, none of its pads is linked. -/
theorem AdapterInserted.no_links {g : Gst} {f c : Elem} {p q : Pad}
    (h : AdapterInserted g f c p q) (L : List (Pad × Pad))
    (hL : ∀ l ∈ L, l ∈ g.links ∧ touches ⟨f, "sink"⟩ l = false ∧ touches ⟨f, "src"⟩ l = false) :
    L.filter (fun l => decide (l.1.elem = f) || decide (l.2.elem = f)) = [] := by
  rw [List.filter_eq_nil_iff]
  intro l hl hf
  have h3 := hL l hl
  have := h.only l h3.1 (by simpa using hf)
  simp [h3.2.1, h3.2.2] at this

/-- Consumer side first: unlinking the "src" pad of the capsfilter from the
consuming pad unlinks its "sink" pad as well and removes it from its bin. -/
theorem teardown_consumer_first (g : Gst) (f c : Elem) (p q : Pad)
    (h : AdapterInserted g f c p q) :
    gst_pad_unlink ⟨f, "src"⟩ q g = tornDown g f c ⟨f, "src"⟩ q p ⟨f, "sink"⟩ := by
  obtain ⟨hp1, hp2, hq1, hq2, hpq, hss⟩ := h.distinct
  rw [← gst_pad_unlinkF_eq (g.links.length + 2) _ _ g (by omega)]
  rw [unlinkF_succ _ _ _ _ h.peer_src]
  -- "unlinked" on the "src" pad of the capsfilter
  have e1 : gst_pad_get_peer (clearPeers ⟨f, "src"⟩ q g) ⟨f, "sink"⟩ = some p :=
    peer_clearPeers_other _ _ _ _ g h.peer_sink hss hq1.symm hp2 hpq
  have e2 : gst_pad_get_peer (clearPeers ⟨f, "src"⟩ q g) p = some ⟨f, "sink"⟩ :=
    peer_clearPeers_other _ _ _ _ g h.peer_p hp2 hpq hss hq1.symm
  rw [emit_single _ _ _ (clearPeers ⟨f, "src"⟩ q g) (Callback.src_unlinked f) h.cb_src]
  simp only [runCallback]
  rw [src_unlinked_forward _ _ _ f (clearPeers ⟨f, "src"⟩ q g) p h.pad_sink e1, unlinkF_succ _ _ _ _ e2]
  rw [emit_nil _ p _ (clearPeers p ⟨f, "sink"⟩ (clearPeers ⟨f, "src"⟩ q g)) h.cb_p]
  rw [emit_single _ _ _ (clearPeers p ⟨f, "sink"⟩ (clearPeers ⟨f, "src"⟩ q g))
    (Callback.sink_unlinked f) h.cb_sink]
  simp only [runCallback]
  have e3 : gst_pad_get_peer (clearPeers p ⟨f, "sink"⟩ (clearPeers ⟨f, "src"⟩ q g)) ⟨f, "src"⟩
      = none :=
    peer_none_of_sublist (shrinks_clearPeers _ _ _).links _ (peer_clearPeers_left _ _ g)
  rw [sink_unlinked_remove _ _ _ _ _ e3]
  have e4 : elemParent (clearPeers p ⟨f, "sink"⟩ (clearPeers ⟨f, "src"⟩ q g)) f = some c :=
    elemParent_of_filter g f c h.parent
  unfold remove_from_parent
  rw [e4]
  simp only
  have hno : (clearPeers p ⟨f, "sink"⟩ (clearPeers ⟨f, "src"⟩ q g)).links.filter
      (fun l => decide (l.1.elem = f) || decide (l.2.elem = f)) = [] := by
    apply h.no_links
    intro l hl
    simp only [clearPeers, List.mem_filter, Bool.not_eq_true', Bool.or_eq_false_iff] at hl
    exact ⟨hl.1.1, hl.2.2, hl.1.2.1⟩
  rw [bin_remove_unlinked _ c f (clearPeers p ⟨f, "sink"⟩ (clearPeers ⟨f, "src"⟩ q g)) hno
    (mem_of_filter_single g f c h.parent)]
  exact emit_nil _ q _ _ h.cb_q

/-- Producer side first: unlinking the producing pad from the "sink" pad of
the capsfilter unlinks its "src" pad as well and removes it from its bin. -/
theorem teardown_producer_first (g : Gst) (f c : Elem) (p q : Pad)
    (h : AdapterInserted g f c p q) :
    gst_pad_unlink p ⟨f, "sink"⟩ g = tornDown g f c p ⟨f, "sink"⟩ ⟨f, "src"⟩ q := by
  obtain ⟨hp1, hp2, hq1, hq2, hpq, hss⟩ := h.distinct
  rw [← gst_pad_unlinkF_eq (g.links.length + 2) _ _ g (by omega)]
  rw [unlinkF_succ _ _ _ _ h.peer_p]
  have e1 : gst_pad_get_peer (clearPeers p ⟨f, "sink"⟩ g) ⟨f, "src"⟩ = some q :=
    peer_clearPeers_other _ _ _ _ g h.peer_src hp2.symm hss.symm hpq.symm hq1
  rw [emit_nil _ p _ (clearPeers p ⟨f, "sink"⟩ g) h.cb_p]
  rw [emit_single _ _ _ (clearPeers p ⟨f, "sink"⟩ g) (Callback.sink_unlinked f) h.cb_sink]
  simp only [runCallback]
  rw [sink_unlinked_forward _ _ _ f (clearPeers p ⟨f, "sink"⟩ g) q h.pad_src e1, unlinkF_succ _ _ _ _ e1]
  rw [emit_single _ _ _ (clearPeers ⟨f, "src"⟩ q (clearPeers p ⟨f, "sink"⟩ g))
    (Callback.src_unlinked f) h.cb_src]
  simp only [runCallback]
  have e3 : gst_pad_get_peer (clearPeers ⟨f, "src"⟩ q (clearPeers p ⟨f, "sink"⟩ g)) ⟨f, "sink"⟩
      = none :=
    peer_none_of_sublist (shrinks_clearPeers _ _ _).links _ (peer_clearPeers_right _ _ g)
  rw [src_unlinked_remove _ _ _ _ _ e3]
  have e4 : elemParent (clearPeers ⟨f, "src"⟩ q (clearPeers p ⟨f, "sink"⟩ g)) f = some c :=
    elemParent_of_filter g f c h.parent
  unfold remove_from_parent
  rw [e4]
  simp only
  have hno : (clearPeers ⟨f, "src"⟩ q (clearPeers p ⟨f, "sink"⟩ g)).links.filter
      (fun l => decide (l.1.elem = f) || decide (l.2.elem = f)) = [] := by
    apply h.no_links
    intro l hl
    simp only [clearPeers, List.mem_filter, Bool.not_eq_true', Bool.or_eq_false_iff] at hl
    exact ⟨hl.1.1, hl.1.2.2, hl.2.1⟩
  rw [bin_remove_unlinked _ c f (clearPeers ⟨f, "src"⟩ q (clearPeers p ⟨f, "sink"⟩ g)) hno
    (mem_of_filter_single g f c h.parent)]
  exact emit_nil _ q _ _ h.cb_q


theorem tornDown_peer_none (g : Gst) (f c : Elem) (a b a' b' x : Pad)
    (hx : x = a ∨ x = b ∨ x = a' ∨ x = b') :
    gst_pad_get_peer (tornDown g f c a b a' b') x = none := by
  rw [peer_none_iff]
  intro l hl
  simp only [tornDown, List.mem_filter, Bool.not_eq_true', Bool.or_eq_false_iff] at hl
  rcases hx with rfl | rfl | rfl | rfl
  · exact hl.1.2.1
  · exact hl.1.2.2
  · exact hl.2.1
  · exact hl.2.2

theorem remove_from_parent_noop (u : Pad → Pad → Gst → Gst) (e : Elem) (g : Gst)
    (h : elemParent g e = none) : remove_from_parent u e g = g := by
  simp [remove_from_parent, h]

/-! ### The loopback link -/

theorem padParent_some (g : Gst) (p : Pad) (e : Elem) (h : padParent g p = some e) :
    e = p.elem := by
  unfold padParent at h
  split at h
  · exact (Option.some.inj h).symm
  · cases h

theorem insert_fields (c : Elem) (g : Gst) :
    (linkPad_insert c g).1 = g.nextElem ∧
    (linkPad_insert c g).2.links = g.links ∧
    (linkPad_insert c g).2.children = (c, g.nextElem) :: g.children ∧
    (linkPad_insert c g).2.handlers = g.handlers ++
      [((⟨g.nextElem, "sink"⟩ : Pad), Callback.sink_unlinked g.nextElem),
       ((⟨g.nextElem, "src"⟩ : Pad), Callback.src_unlinked g.nextElem)] ∧
    (linkPad_insert c g).2.pads = ⟨g.nextElem, "sink"⟩ :: ⟨g.nextElem, "src"⟩ :: g.pads ∧
    (linkPad_insert c g).2.processed = g.processed ∧
    (linkPad_insert c g).2.request = g.request := by
  simp [linkPad_insert, gst_element_factory_make, g_signal_connect, gst_bin_add]

theorem peer_cons_left (g : Gst) (a b : Pad) (L : List (Pad × Pad)) (h : g.links = (a, b) :: L) :
    gst_pad_get_peer g a = some b := by
  simp [gst_pad_get_peer, h, touches]

theorem peer_cons_right (g : Gst) (a b : Pad) (L : List (Pad × Pad)) (h : g.links = (a, b) :: L)
    (hab : a ≠ b) : gst_pad_get_peer g b = some a := by
  simp [gst_pad_get_peer, h, touches, hab]

theorem peer_cons_skip (g g0 : Gst) (a b x : Pad) (h : g.links = (a, b) :: g0.links)
    (hxa : a ≠ x) (hxb : b ≠ x) : gst_pad_get_peer g x = gst_pad_get_peer g0 x := by
  simp [gst_pad_get_peer, h, touches, hxa, hxb]


theorem filter_handlers_fresh (g : Gst) (hfresh : FreshElem g) (x : Pad)
    (hx : x.elem = g.nextElem) :
    g.handlers.filter (fun h => decide (h.1 = x)) = [] := by
  rw [List.filter_eq_nil_iff]
  intro h hh
  have := hfresh.2.1 h hh
  simp only [decide_eq_true_eq]
  intro e
  rw [e, hx] at this
  exact lt_irrefl _ this

/-- What a successful loopback link leaves: the capsfilter, named by the next
element identity, inserted between the two pads. -/
theorem loopback_success (accepts : Pad → Pad → Bool) (src sinkpad : Pad) (G0 G' : Gst)
    (hfresh : FreshElem G0) (hsrc : src.elem < G0.nextElem)
    (hsk : sinkpad.elem < G0.nextElem)
    (hcbp : G0.handlers.filter (fun h => decide (h.1 = src)) = [])
    (hcbq : G0.handlers.filter (fun h => decide (h.1 = sinkpad)) = [])
    (hsuc : linkPad_loopback accepts src sinkpad G0 = some (true, G')) :
    ∃ c, elemParent G0 sinkpad.elem = some c ∧
      G'.links = (src, ⟨G0.nextElem, "sink"⟩) :: (⟨G0.nextElem, "src"⟩, sinkpad) :: G0.links ∧
      G'.children = (c, G0.nextElem) :: G0.children ∧
      G'.processed = G0.processed ∧
      G'.pads = ⟨G0.nextElem, "sink"⟩ :: ⟨G0.nextElem, "src"⟩ :: G0.pads ∧
      G'.request = G0.request ∧
      gst_pad_get_peer G0 src = none ∧
      AdapterInserted G' G0.nextElem c src sinkpad := by
  unfold linkPad_loopback at hsuc
  cases hpp : padParent G0 sinkpad with
  | none => simp [hpp] at hsuc
  | some parent =>
    have hpe := padParent_some G0 sinkpad parent hpp
    subst hpe
    cases hep : elemParent G0 sinkpad.elem with
    | none => simp [hpp, hep] at hsuc
    | some c =>
      obtain ⟨hf1, hf2, hf3, hf4, hf5, hf6, hf7⟩ := insert_fields c G0
      simp only [hpp, hep, hf1] at hsuc
      by_cases hl1 : (gst_pad_link accepts ⟨G0.nextElem, "src"⟩ sinkpad
          (linkPad_insert c G0).2).1 = GstPadLinkReturn.GST_PAD_LINK_OK
      · by_cases hl2 : (gst_pad_link accepts src ⟨G0.nextElem, "sink"⟩
            (gst_pad_link accepts ⟨G0.nextElem, "src"⟩ sinkpad (linkPad_insert c G0).2).2).1
            = GstPadLinkReturn.GST_PAD_LINK_OK
        · simp only [hl1, hl2, if_true, Option.some.injEq, Prod.mk.injEq, true_and] at hsuc
          have hL1 := link_links_ok _ _ _ _ hl1
          rw [hf2] at hL1
          have hL2 := link_links_ok _ _ _ _ hl2
          rw [hL1, hsuc] at hL2
          have fr1 := link_frame accepts ⟨G0.nextElem, "src"⟩ sinkpad (linkPad_insert c G0).2
          have fr2 := link_frame accepts src ⟨G0.nextElem, "sink"⟩
            (gst_pad_link accepts ⟨G0.nextElem, "src"⟩ sinkpad (linkPad_insert c G0).2).2
          rw [hsuc] at fr2
          have hsrc_free := ((link_ok_iff _ _ _ _).mp hl2).1
          have hsrc0 : gst_pad_get_peer G0 src = none := by
            rw [peer_none_iff] at hsrc_free ⊢
            intro l hl
            exact hsrc_free l (by rw [hL1]; exact List.mem_cons_of_mem _ hl)
          have hhead := (peer_none_iff _ _).mp hsrc_free (⟨G0.nextElem, "src"⟩, sinkpad)
            (by rw [hL1]; exact List.mem_cons_self _ _)
          simp only [touches, Bool.or_eq_false_iff, decide_eq_false_iff_not] at hhead
          have n1 : src ≠ ⟨G0.nextElem, "sink"⟩ := by
            intro e; rw [e] at hsrc; exact lt_irrefl _ hsrc
          have n2 : src ≠ ⟨G0.nextElem, "src"⟩ := by
            intro e; rw [e] at hsrc; exact lt_irrefl _ hsrc
          have n3 : sinkpad ≠ ⟨G0.nextElem, "sink"⟩ := by
            intro e; rw [e] at hsk; exact lt_irrefl _ hsk
          have n4 : sinkpad ≠ ⟨G0.nextElem, "src"⟩ := by
            intro e; rw [e] at hsk; exact lt_irrefl _ hsk
          have n5 : sinkpad ≠ src := hhead.2
          have n6 : (⟨G0.nextElem, "sink"⟩ : Pad) ≠ ⟨G0.nextElem, "src"⟩ := by simp
          have hH : G'.handlers = G0.handlers ++
              [((⟨G0.nextElem, "sink"⟩ : Pad), Callback.sink_unlinked G0.nextElem),
               ((⟨G0.nextElem, "src"⟩ : Pad), Callback.src_unlinked G0.nextElem)] := by
            rw [fr2.2.2.2.1, fr1.2.2.2.1, hf4]
          have hC : G'.children = (c, G0.nextElem) :: G0.children := by
            rw [fr2.1, fr1.1, hf3]
          have hP : G'.pads = ⟨G0.nextElem, "sink"⟩ :: ⟨G0.nextElem, "src"⟩ :: G0.pads := by
            rw [fr2.2.1, fr1.2.1, hf5]
          have hG1 : gst_pad_get_peer
              (gst_pad_link accepts ⟨G0.nextElem, "src"⟩ sinkpad (linkPad_insert c G0).2).2
              ⟨G0.nextElem, "src"⟩ = some sinkpad := peer_cons_left _ _ _ _ hL1
          have hG2 : gst_pad_get_peer
              (gst_pad_link accepts ⟨G0.nextElem, "src"⟩ sinkpad (linkPad_insert c G0).2).2
              sinkpad = some ⟨G0.nextElem, "src"⟩ := peer_cons_right _ _ _ _ hL1 n4.symm
          have hL2' : G'.links = (src, ⟨G0.nextElem, "sink"⟩) ::
              (gst_pad_link accepts ⟨G0.nextElem, "src"⟩ sinkpad
                (linkPad_insert c G0).2).2.links := by
            rw [hL2, hL1]
          refine ⟨c, rfl, hL2, hC, by rw [fr2.2.2.2.2.1, fr1.2.2.2.2.1, hf6], hP,
            by rw [fr2.2.2.1, fr1.2.2.1, hf7], hsrc0, ?_⟩
          refine ⟨by rw [hP]; simp, by rw [hP]; simp, ?_, ?_, ?_, ?_, ne_of_lt hsrc,
            ne_of_lt hsk, ?_, ?_, ?_, ?_, ?_, ?_⟩
          · exact peer_cons_right G' _ _ _ hL2 n1
          · exact peer_cons_left G' _ _ _ hL2
          · rw [peer_cons_skip G' _ _ _ _ hL2' n2 n6]; exact hG1
          · rw [peer_cons_skip G' _ _ _ _ hL2' n5.symm n3.symm]; exact hG2
          · intro l hl hor
            rw [hL2] at hl
            simp only [List.mem_cons] at hl
            rcases hl with rfl | rfl | hl
            · simp [touches]
            · simp [touches]
            · have := hfresh.1 l hl
              rcases hor with e | e
              · rw [e] at this; exact absurd this.1 (lt_irrefl _)
              · rw [e] at this; exact absurd this.2 (lt_irrefl _)
          · rw [hH, List.filter_append, filter_handlers_fresh G0 hfresh _ rfl]
            simp
          · rw [hH, List.filter_append, filter_handlers_fresh G0 hfresh _ rfl]
            simp
          · rw [hH, List.filter_append, hcbp]
            simp [n1.symm, n2.symm]
          · rw [hH, List.filter_append, hcbq]
            simp [n3.symm, n4.symm]
          · rw [hC, List.filter_cons_of_pos (by simp)]
            congr 1
            rw [List.filter_eq_nil_iff]
            intro x hx
            have := hfresh.2.2.1 x hx
            simp only [decide_eq_true_eq]
            exact ne_of_lt this
        · simp [hl1, hl2] at hsuc
      · simp [hl1] at hsuc


theorem sink_fields (s : State) :
    (linkPad_sink s).2.handlers = s.gst.handlers ∧
    (linkPad_sink s).2.processed = s.gst.processed ∧
    (linkPad_sink s).2.nextElem = s.gst.nextElem ∧
    (linkPad_sink s).1 ∈ (linkPad_sink s).2.pads := by
  unfold linkPad_sink gst_element_get_static_pad gst_element_get_request_pad
  split
  · next sink hh =>
    split at hh
    · next hm => cases hh; exact ⟨rfl, rfl, rfl, hm⟩
    · cases hh
  · simp

theorem untouched_of_fresh (g : Gst) (hfresh : FreshElem g) (x : Pad)
    (hx : x.elem = g.nextElem) : ∀ l ∈ g.links, touches x l = false := by
  intro l hl
  have := hfresh.1 l hl
  simp only [touches, Bool.or_eq_false_iff, decide_eq_false_iff_not]
  constructor
  · intro e; rw [e, hx] at this; exact lt_irrefl _ this.1
  · intro e; rw [e, hx] at this; exact lt_irrefl _ this.2

/-- Clearing the two links of the capsfilter leaves the links there were
before it was inserted. -/
theorem roundtrip_links (L : List (Pad × Pad)) (p q a b : Pad)
    (hpb : p ≠ b) (hqa : q ≠ a) (hpq : p ≠ q) (hab : a ≠ b)
    (hL : ∀ l ∈ L, touches p l = false ∧ touches q l = false ∧ touches a l = false ∧
      touches b l = false) :
    (((p, a) :: (b, q) :: L).filter (fun l => !(touches b l || touches q l))).filter
      (fun l => !(touches p l || touches a l)) = L := by
  have h1 : (fun l => !(touches b l || touches q l)) (p, a) = true := by
    simp [touches, hpb, hab, hpq, hqa.symm]
  have h2 : (fun l => !(touches b l || touches q l)) (b, q) = false := by
    simp [touches]
  have h3 : (fun l => !(touches p l || touches a l)) (p, a) = false := by
    simp [touches]
  have hA : L.filter (fun l => !(touches b l || touches q l)) = L := by
    rw [List.filter_eq_self]
    intro l hl
    simp [(hL l hl).2.1, (hL l hl).2.2.2]
  have hB : L.filter (fun l => !(touches p l || touches a l)) = L := by
    rw [List.filter_eq_self]
    intro l hl
    simp [(hL l hl).1, (hL l hl).2.2.1]
  simp only at h1 h2 h3
  have e1 : ((p, a) :: (b, q) :: L).filter (fun l => !(touches b l || touches q l))
      = (p, a) :: L := by
    rw [List.filter_cons, List.filter_cons, hA]
    simp only [h1, h2, if_true, Bool.false_eq_true, if_false]
  rw [e1, List.filter_cons, hB]
  simp only [h3, Bool.false_eq_true, if_false]

theorem roundtrip_children (C : List (Elem × Elem)) (c n : Elem) (hC : ∀ x ∈ C, x.2 < n) :
    ((c, n) :: C).filter (fun x => decide (x ≠ (c, n))) = C := by
  rw [List.filter_cons_of_neg (by simp), List.filter_eq_self]
  intro x hx
  have := hC x hx
  simp only [ne_eq, decide_not, Bool.not_eq_true', decide_eq_false_iff_not]
  intro e
  rw [e] at this
  exact lt_irrefl _ this

/-- Roll-back of the loopback link: when the link to the consuming pad was
made and the link from the producing pad is refused, unlinking the first
takes the capsfilter out of the container again. -/
theorem loopback_rollback (accepts : Pad → Pad → Bool) (src sinkpad : Pad) (G0 G' : Gst)
    (hfresh : FreshElem G0) (hsk : sinkpad.elem < G0.nextElem)
    (hfree : gst_pad_get_peer G0 sinkpad = none)
    (hcbq : G0.handlers.filter (fun h => decide (h.1 = sinkpad)) = [])
    (hacc : accepts ⟨G0.nextElem, "src"⟩ sinkpad = true)
    (hfail : linkPad_loopback accepts src sinkpad G0 = some (false, G')) :
    G'.links = G0.links ∧ G'.children = G0.children ∧ G'.request = G0.request ∧
    G'.pads = ⟨G0.nextElem, "sink"⟩ :: ⟨G0.nextElem, "src"⟩ :: G0.pads := by
  unfold linkPad_loopback at hfail
  cases hpp : padParent G0 sinkpad with
  | none => simp [hpp] at hfail
  | some parent =>
    cases hep : elemParent G0 parent with
    | none => simp [hpp, hep] at hfail
    | some c =>
      obtain ⟨hf1, hf2, hf3, hf4, hf5, hf6, hf7⟩ := insert_fields c G0
      simp only [hpp, hep, hf1] at hfail
      have n4 : sinkpad ≠ ⟨G0.nextElem, "src"⟩ := by
        intro e; rw [e] at hsk; exact lt_irrefl _ hsk
      have n6 : (⟨G0.nextElem, "sink"⟩ : Pad) ≠ ⟨G0.nextElem, "src"⟩ := by simp
      have hauxsrc : gst_pad_get_peer (linkPad_insert c G0).2 ⟨G0.nextElem, "src"⟩ = none := by
        rw [peer_none_iff, hf2]; exact untouched_of_fresh G0 hfresh _ rfl
      have hsinkfree : gst_pad_get_peer (linkPad_insert c G0).2 sinkpad = none := by
        rw [peer_none_iff, hf2]; exact (peer_none_iff _ _).mp hfree
      have hl1 : (gst_pad_link accepts ⟨G0.nextElem, "src"⟩ sinkpad
          (linkPad_insert c G0).2).1 = GstPadLinkReturn.GST_PAD_LINK_OK :=
        (link_ok_iff _ _ _ _).mpr ⟨hauxsrc, hsinkfree, hacc⟩
      by_cases hl2 : (gst_pad_link accepts src ⟨G0.nextElem, "sink"⟩
          (gst_pad_link accepts ⟨G0.nextElem, "src"⟩ sinkpad (linkPad_insert c G0).2).2).1
          = GstPadLinkReturn.GST_PAD_LINK_OK
      · simp [hl1, hl2] at hfail
      · simp only [hl1, hl2, if_true, if_false, Option.some.injEq, Prod.mk.injEq,
          true_and] at hfail
        have hL1 := link_links_ok _ _ _ _ hl1
        rw [hf2] at hL1
        have hL2 := link_links_fail _ _ _ _ hl2
        rw [hL1] at hL2
        have fr1 := link_frame accepts ⟨G0.nextElem, "src"⟩ sinkpad (linkPad_insert c G0).2
        have fr2 := link_frame accepts src ⟨G0.nextElem, "sink"⟩
          (gst_pad_link accepts ⟨G0.nextElem, "src"⟩ sinkpad (linkPad_insert c G0).2).2
        -- the state on which the first link is unlinked
        generalize hX : (gst_pad_link accepts src ⟨G0.nextElem, "sink"⟩
          (gst_pad_link accepts ⟨G0.nextElem, "src"⟩ sinkpad (linkPad_insert c G0).2).2).2
          = X at hfail hL2 fr2
        have hXc : X.children = (c, G0.nextElem) :: G0.children := by
          rw [fr2.1, fr1.1, hf3]
        have hXh : X.handlers = G0.handlers ++
            [((⟨G0.nextElem, "sink"⟩ : Pad), Callback.sink_unlinked G0.nextElem),
             ((⟨G0.nextElem, "src"⟩ : Pad), Callback.src_unlinked G0.nextElem)] := by
          rw [fr2.2.2.2.1, fr1.2.2.2.1, hf4]
        have hXp : X.pads = ⟨G0.nextElem, "sink"⟩ :: ⟨G0.nextElem, "src"⟩ :: G0.pads := by
          rw [fr2.2.1, fr1.2.1, hf5]
        have hXr : X.request = G0.request := by rw [fr2.2.2.1, fr1.2.2.1, hf7]
        have hpeer : gst_pad_get_peer X ⟨G0.nextElem, "src"⟩ = some sinkpad :=
          peer_cons_left X _ _ _ hL2
        -- links once the peers are cleared
        have hcl : (clearPeers ⟨G0.nextElem, "src"⟩ sinkpad X).links = G0.links := by
          simp only [clearPeers, hL2]
          rw [List.filter_cons_of_neg (by simp [touches]), List.filter_eq_self]
          intro l hl
          simp [untouched_of_fresh G0 hfresh ⟨G0.nextElem, "src"⟩ rfl l hl,
            (peer_none_iff _ _).mp hfree l hl]
        have hcbsrc : ((clearPeers ⟨G0.nextElem, "src"⟩ sinkpad X).handlers.filter
            (fun h => decide (h.1 = ⟨G0.nextElem, "src"⟩))).map (fun h => h.2)
            = [Callback.src_unlinked G0.nextElem] := by
          show ((X.handlers.filter _).map _) = _
          rw [hXh, List.filter_append, filter_handlers_fresh G0 hfresh _ rfl]
          simp
        have hcbsink : (clearPeers ⟨G0.nextElem, "src"⟩ sinkpad X).handlers.filter
            (fun h => decide (h.1 = sinkpad)) = [] := by
          show X.handlers.filter _ = _
          rw [hXh, List.filter_append, hcbq]
          simp [n4.symm]
          intro e; rw [← e] at hsk; exact lt_irrefl _ hsk
        have hauxsink : gst_pad_get_peer (clearPeers ⟨G0.nextElem, "src"⟩ sinkpad X)
            ⟨G0.nextElem, "sink"⟩ = none := by
          rw [peer_none_iff, hcl]; exact untouched_of_fresh G0 hfresh _ rfl
        have hpar : (clearPeers ⟨G0.nextElem, "src"⟩ sinkpad X).children.filter
            (fun x => decide (x.2 = G0.nextElem)) = [(c, G0.nextElem)] := by
          show X.children.filter _ = _
          rw [hXc, List.filter_cons_of_pos (by simp)]
          congr 1
          rw [List.filter_eq_nil_iff]
          intro x hx
          simp only [decide_eq_true_eq]
          exact ne_of_lt (hfresh.2.2.1 x hx)
        have hno : (clearPeers ⟨G0.nextElem, "src"⟩ sinkpad X).links.filter
            (fun l => decide (l.1.elem = G0.nextElem) || decide (l.2.elem = G0.nextElem)) = [] := by
          rw [hcl, List.filter_eq_nil_iff]
          intro l hl
          have := hfresh.1 l hl
          simp [ne_of_lt this.1, ne_of_lt this.2]
        have hun : gst_pad_unlink ⟨G0.nextElem, "src"⟩ sinkpad X =
            { clearPeers ⟨G0.nextElem, "src"⟩ sinkpad X with
              children := (clearPeers ⟨G0.nextElem, "src"⟩ sinkpad X).children.filter
                (fun x => decide (x ≠ (c, G0.nextElem))),
              trace := Event.bin_remove c G0.nextElem ::
                (clearPeers ⟨G0.nextElem, "src"⟩ sinkpad X).trace } := by
          rw [← gst_pad_unlinkF_eq (X.links.length + 1) _ _ X (by omega)]
          rw [unlinkF_succ _ _ _ _ hpeer]
          rw [emit_single _ _ _ (clearPeers ⟨G0.nextElem, "src"⟩ sinkpad X)
            (Callback.src_unlinked G0.nextElem) hcbsrc]
          simp only [runCallback]
          rw [src_unlinked_remove _ _ _ _ _ hauxsink]
          unfold remove_from_parent
          rw [elemParent_of_filter _ _ c hpar]
          simp only
          rw [bin_remove_unlinked _ c G0.nextElem (clearPeers ⟨G0.nextElem, "src"⟩ sinkpad X)
            hno (mem_of_filter_single _ _ c hpar)]
          exact emit_nil _ sinkpad _ _ hcbsink
        rw [← hfail, hun]
        refine ⟨hcl, ?_, hXr, hXp⟩
        show X.children.filter _ = _
        rw [hXc]
        exact roundtrip_children _ _ _ hfresh.2.2.1

/-! ### The resolution step of `linkPad` -/

/-- The resolution step of `linkPad`: whenever it returns with a live tracked
producer, the consuming pad has no peer; with nothing live tracked it returns
at once and keeps the links, and `linkPad` returns false on a linked pad; and
`linkPad` never gives a consuming pad a second link. -/
theorem resolve_and_count (accepts : Pad → Pad → Bool) (fires : Nat)
    (mediaSrc : MediaSourceImpl) (src : Pad) (s : State) :
    (∀ sink s1, (lock s).isSome = true →
      mutualPeer s.gst ⟨s.self.element, getPadName s.self⟩ = true →
      linkPad_resolve fires s = some (sink, s1) →
      sink = ⟨s.self.element, getPadName s.self⟩ ∧ gst_pad_get_peer s1.gst sink = none) ∧
    (lock s = none →
      gst_pad_is_linked s.gst ⟨s.self.element, getPadName s.self⟩ = true →
      ∃ s1 s', linkPad_resolve fires s = some (⟨s.self.element, getPadName s.self⟩, s1) ∧
        s1.gst.links = s.gst.links ∧
        linkPad accepts fires mediaSrc src s = some (false, s')) ∧
    (∀ ret s', linkPad accepts fires mediaSrc src s = some (ret, s') →
      peerCount s.gst ⟨s.self.element, getPadName s.self⟩ ≤ 1 →
      peerCount s'.gst ⟨s.self.element, getPadName s.self⟩ ≤ 1) := by
  refine ⟨?_, ?_, ?_⟩
  · intro sink s1 hlock hmut hres
    have hsink := resolve_pad fires s sink s1 hres
    refine ⟨hsink, ?_⟩
    obtain ⟨P, hP⟩ := Option.isSome_iff_exists.mp hlock
    unfold linkPad_resolve at hres
    simp only at hres
    have hsk := sink_pad s
    split at hres
    · split at hres
      · cases hres
      · next s2 hu =>
        have hl0 : lock { s with gst := (linkPad_sink s).2 } = some P := hP
        unfold unlink at hu
        rw [hl0, hP] at hu
        simp only [if_true] at hu
        split at hu
        · cases hu
        · next g hg =>
          simp only [Option.some.injEq, Prod.mk.injEq] at hres
          rw [← hres.1, ← hres.2]
          cases hu
          simp only [removeSink]
          unfold unlinkUnchecked unlinkUnchecked_pad at hg
          simp only at hg
          split at hg
          · cases hg
          · next g1 hw =>
            simp only [reduceCtorEq, if_false, Option.some.injEq] at hg
            rw [← hg]
            refine wait_severs fires _ _ g1 ?_ hw
            have : mutualPeer (linkPad_sink s).2 (linkPad_sink s).1
                = mutualPeer s.gst ⟨s.self.element, getPadName s.self⟩ := by
              unfold mutualPeer
              simp only [sink_peer, hsk]
            rw [this]; exact hmut
    · next hnl =>
      simp only [Option.some.injEq, Prod.mk.injEq] at hres
      rw [← hres.1, ← hres.2]
      exact (is_linked_false_iff _ _).mp (by simpa using hnl)
  · intro hlock hlinked
    have hres := resolve_stale fires s hlock
    rw [sink_pad] at hres
    refine ⟨_, (linkPad_connect accepts mediaSrc src ⟨s.self.element, getPadName s.self⟩
      { s with gst := (linkPad_sink s).2 }).2, hres, sink_links s, ?_⟩
    unfold linkPad
    rw [hres]
    simp only [Option.some.injEq]
    have hne : gst_pad_get_peer ({ s with gst := (linkPad_sink s).2 } : State).gst
        ⟨s.self.element, getPadName s.self⟩ ≠ none := by
      simp only [sink_peer]
      intro hn
      rw [(is_linked_false_iff _ _).mpr hn] at hlinked
      cases hlinked
    have := connect_false_of_linked accepts mediaSrc src _ _ hne
    exact Prod.ext this rfl
  · intro ret s' h hcount
    unfold linkPad at h
    split at h
    · cases h
    · next sink s1 hres =>
      have hfr := resolve_frame fires s sink s1 hres
      simp only [Option.some.injEq] at h
      have h1 : peerCount s1.gst ⟨s.self.element, getPadName s.self⟩ ≤ 1 :=
        le_trans (peerCount_sublist hfr.2.2.1 _) hcount
      have := connect_peerCount accepts mediaSrc src sink s1 _ h1
      rw [h] at this
      exact this

/-- With a live tracked producer and a linked consuming pad, the resolution
step of `linkPad` is the wait of `unlinkUnchecked` followed by `removeSink`. -/
theorem resolve_live (fires : Nat) (s : State) (P : MediaSourceImpl) (peer : Pad)
    (hlock : lock s = some P)
    (hpeer : gst_pad_get_peer s.gst ⟨s.self.element, getPadName s.self⟩ = some peer) :
    linkPad_resolve fires s =
      (unlinkUnchecked_wait fires ⟨s.self.element, getPadName s.self⟩ (linkPad_sink s).2).map
        (fun g => ((⟨s.self.element, getPadName s.self⟩ : Pad),
          removeSink P { s with gst := g })) := by
  have hlinked : gst_pad_is_linked (linkPad_sink s).2 (linkPad_sink s).1 = true := by
    rw [sink_pad]
    simp [gst_pad_is_linked, sink_peer, hpeer]
  have hl0 : lock { s with gst := (linkPad_sink s).2 } = some P := hlock
  unfold linkPad_resolve
  simp only [hlinked, if_true]
  unfold unlink
  rw [hl0, hlock]
  simp only [if_true]
  unfold unlinkUnchecked unlinkUnchecked_pad
  simp only [sink_pad]
  cases unlinkUnchecked_wait fires ⟨s.self.element, getPadName s.self⟩ (linkPad_sink s).2 with
  | none => rfl
  | some g => simp

theorem linkPad_of_resolve_none (accepts : Pad → Pad → Bool) (fires : Nat)
    (mediaSrc : MediaSourceImpl) (src : Pad) (s : State) (h : linkPad_resolve fires s = none) :
    linkPad accepts fires mediaSrc src s = none := by
  simp [linkPad, h]

theorem linkPad_of_resolve_some (accepts : Pad → Pad → Bool) (fires : Nat)
    (mediaSrc : MediaSourceImpl) (src : Pad) (s : State) (sink : Pad) (s1 : State)
    (h : linkPad_resolve fires s = some (sink, s1)) :
    linkPad accepts fires mediaSrc src s = some (linkPad_connect accepts mediaSrc src sink s1) := by
  simp [linkPad, h]

/-- A link attempt on a consuming pad that has a peer fails and adds no link
and no request pad. -/
theorem attempt_of_linked (accepts : Pad → Pad → Bool) (mediaSrc : MediaSourceImpl)
    (self : MediaSinkImpl) (src sink : Pad) (G g : Gst) (b : Bool)
    (h : gst_pad_get_peer G sink ≠ none)
    (hr : linkPad_attempt accepts mediaSrc self src sink G = some (b, g)) :
    b = false ∧ g.links = G.links ∧ g.request = G.request := by
  unfold linkPad_attempt at hr
  split at hr
  · unfold linkPad_loopback at hr
    split at hr
    · cases hr
    · split at hr
      · cases hr
      · next container _ =>
        have hno : (gst_pad_link accepts ⟨(linkPad_insert container G).1, "src"⟩ sink
            (linkPad_insert container G).2).1 ≠ GstPadLinkReturn.GST_PAD_LINK_OK := by
          intro hok
          exact h ((link_ok_iff _ _ _ _).mp hok).2.1
        simp only [hno, if_false, Option.some.injEq, Prod.mk.injEq] at hr
        rw [← hr.1, ← hr.2]
        exact ⟨rfl, by rw [link_links_fail _ _ _ _ hno, insert_links],
          by rw [(link_frame _ _ _ _).2.2.1, (insert_fields container G).2.2.2.2.2.2]⟩
  · have hno : (gst_pad_link accepts src sink G).1 ≠ GstPadLinkReturn.GST_PAD_LINK_OK := by
      intro hok
      exact h ((link_ok_iff _ _ _ _).mp hok).2.1
    simp only [Option.some.injEq, Prod.mk.injEq] at hr
    rw [← hr.1, ← hr.2]
    exact ⟨by simp [hno], link_links_fail _ _ _ _ hno, (link_frame _ _ _ _).2.2.1⟩

/-- Removing a pad whose link is mutual severs the link. -/
theorem remove_pad_severs (pad peer : Pad) (g : Gst)
    (h1 : gst_pad_get_peer g pad = some peer) (h2 : gst_pad_get_peer g peer = some pad) :
    gst_pad_get_peer (gst_element_remove_pad pad g) pad = none := by
  unfold gst_element_remove_pad
  have key : gst_pad_get_peer (match g.links.find? (touches pad) with
      | some l => gst_pad_unlink l.1 l.2 g
      | none => g) pad = none := by
    unfold gst_pad_get_peer at h1
    split at h1
    · next l hl =>
      try simp only [hl]
      have ht := List.find?_some hl
      simp only [touches, Bool.or_eq_true, decide_eq_true_eq] at ht
      simp only [Option.some.injEq] at h1
      by_cases e : l.1 = pad
      · rw [if_pos e] at h1
        rw [e, h1]
        have hp : gst_pad_get_peer g pad = some peer := by
          simp [gst_pad_get_peer, hl, e, h1]
        exact (unlink_severs pad peer g hp).1
      · rw [if_neg e] at h1
        have e2 : l.2 = pad := by
          rcases ht with h' | h'
          · exact absurd h' e
          · exact h'
        rw [h1, e2]
        exact (unlink_severs peer pad g h2).2
    · cases h1
  rw [peer_none_iff] at key ⊢
  exact key


theorem attempt_none_of_unresolved (accepts : Pad → Pad → Bool) (mediaSrc : MediaSourceImpl)
    (self : MediaSinkImpl) (src sink : Pad) (G : Gst)
    (hpar : mediaSrc.parent = self.parent) (hcont : elemParent G sink.elem = none) :
    linkPad_attempt accepts mediaSrc self src sink G = none := by
  unfold linkPad_attempt
  rw [if_pos hpar]
  unfold linkPad_loopback
  cases hpp : padParent G sink with
  | none => rfl
  | some parent =>
    have := padParent_some G sink parent hpp
    subst this
    simp [hcont]

theorem attempt_some_of_resolved (accepts : Pad → Pad → Bool) (mediaSrc : MediaSourceImpl)
    (self : MediaSinkImpl) (src sink : Pad) (G : Gst) (hmem : sink ∈ G.pads)
    (hres : mediaSrc.parent ≠ self.parent ∨ elemParent G sink.elem ≠ none) :
    ∃ b g, linkPad_attempt accepts mediaSrc self src sink G = some (b, g) := by
  unfold linkPad_attempt
  by_cases hpar : mediaSrc.parent = self.parent
  · rw [if_pos hpar]
    have hc : elemParent G sink.elem ≠ none := by
      rcases hres with h | h
      · exact absurd hpar h
      · exact h
    obtain ⟨c, hc'⟩ := Option.ne_none_iff_exists'.mp hc
    unfold linkPad_loopback
    simp only [padParent, hmem, if_true, hc']
    split
    · split <;> exact ⟨_, _, rfl⟩
    · exact ⟨_, _, rfl⟩
  · rw [if_neg hpar]
    exact ⟨_, _, rfl⟩

/-- After a link attempt on a linked consuming pad that is not a request pad,
the links are those before the attempt. -/
theorem connect_stale_links (accepts : Pad → Pad → Bool) (mediaSrc : MediaSourceImpl)
    (src sink : Pad) (s0 : State) (hlinked : gst_pad_get_peer s0.gst sink ≠ none)
    (hreq : sink ∉ s0.gst.request) :
    (linkPad_connect accepts mediaSrc src sink s0).2.gst.links = s0.gst.links := by
  unfold linkPad_connect
  split
  · rfl
  · next g hr => exact absurd (attempt_of_linked _ _ _ _ _ _ _ _ hlinked hr).1 (by simp)
  · next g hr =>
    obtain ⟨_, h2, h3⟩ := attempt_of_linked _ _ _ _ _ _ _ _ hlinked hr
    have : sink ∉ g.request := by rw [h3]; exact hreq
    simp [gst_element_release_request_pad, this, h2]

/-- After a link attempt on a linked consuming request pad that reaches the
release of the pad, the pad has no peer. -/
theorem connect_stale_severs (accepts : Pad → Pad → Bool) (mediaSrc : MediaSourceImpl)
    (src sink peer : Pad) (s0 : State)
    (hpeer : gst_pad_get_peer s0.gst sink = some peer)
    (hmut : gst_pad_get_peer s0.gst peer = some sink)
    (hreq : sink ∈ s0.gst.request) (hel : sink.elem = s0.self.element)
    (hmem : sink ∈ s0.gst.pads)
    (hres : mediaSrc.parent ≠ s0.self.parent ∨ elemParent s0.gst sink.elem ≠ none) :
    gst_pad_get_peer (linkPad_connect accepts mediaSrc src sink s0).2.gst sink = none := by
  have hlinked : gst_pad_get_peer s0.gst sink ≠ none := by rw [hpeer]; simp
  obtain ⟨b, g, hA⟩ := attempt_some_of_resolved accepts mediaSrc s0.self src sink s0.gst hmem hres
  obtain ⟨hb, h2, h3⟩ := attempt_of_linked _ _ _ _ _ _ _ _ hlinked hA
  subst hb
  unfold linkPad_connect
  rw [hA]
  simp only
  have hin : sink ∈ g.request := by rw [h3]; exact hreq
  have hp1 : gst_pad_get_peer g sink = some peer := by
    unfold gst_pad_get_peer at hpeer ⊢; rw [h2]; exact hpeer
  have hp2 : gst_pad_get_peer g peer = some sink := by
    unfold gst_pad_get_peer at hmut ⊢; rw [h2]; exact hmut
  unfold gst_element_release_request_pad
  rw [if_pos ⟨hin, hel⟩]
  exact remove_pad_severs sink peer g hp1 hp2

theorem sink_request (s : State)
    (h : (⟨s.self.element, getPadName s.self⟩ : Pad) ∈ s.gst.request ∨
      (⟨s.self.element, getPadName s.self⟩ : Pad) ∉ s.gst.pads) :
    (⟨s.self.element, getPadName s.self⟩ : Pad) ∈ (linkPad_sink s).2.request := by
  unfold linkPad_sink gst_element_get_static_pad gst_element_get_request_pad
  by_cases hm : (⟨s.self.element, getPadName s.self⟩ : Pad) ∈ s.gst.pads
  · rcases h with h | h
    · simp [hm, h]
    · exact absurd hm h
  · simp [hm]

theorem sink_static (s : State)
    (h : (⟨s.self.element, getPadName s.self⟩ : Pad) ∈ s.gst.pads) :
    (linkPad_sink s).2 = s.gst := by
  simp [linkPad_sink, gst_element_get_static_pad, h]

theorem peer_mem (g : Gst) (p q : Pad) (h : gst_pad_get_peer g p = some q) :
    ∃ l ∈ g.links, touches q l = true := by
  unfold gst_pad_get_peer at h
  split at h
  · next l hl =>
    have ht := List.find?_some hl
    simp only [touches, Bool.or_eq_true, decide_eq_true_eq] at ht
    simp only [Option.some.injEq] at h
    refine ⟨l, List.mem_of_find?_eq_some hl, ?_⟩
    simp only [touches, Bool.or_eq_true, decide_eq_true_eq]
    by_cases e : l.1 = p
    · rw [if_pos e] at h; exact Or.inr h
    · rw [if_neg e] at h; exact Or.inl h
  · cases h

/-- What the resolution step of `linkPad` leaves besides the links and bin
contents: the endpoint, the producers, the signal connections and the element
counter are unchanged, the consuming pad is exposed, and a pad newly marked
"processed" is an end of a link there was. -/
theorem resolve_state (fires : Nat) (s : State) (sink : Pad) (s0 : State)
    (h : linkPad_resolve fires s = some (sink, s0)) :
    s0.gst.handlers = s.gst.handlers ∧ s0.gst.nextElem = s.gst.nextElem ∧
    sink ∈ s0.gst.pads ∧
    (∀ p ∈ s0.gst.processed, p ∈ s.gst.processed ∨ ∃ l ∈ s.gst.links, touches p l = true) := by
  obtain ⟨sf1, sf2, sf3, sf4⟩ := sink_fields s
  unfold linkPad_resolve at h
  simp only at h
  split at h
  · split at h
    · cases h
    · next s2 hu =>
      simp only [Option.some.injEq, Prod.mk.injEq] at h
      rw [← h.1, ← h.2]
      unfold unlink at hu
      split at hu
      · split at hu
        · split at hu
          · cases hu
          · next g hg =>
            cases hu
            simp only [removeSink]
            unfold unlinkUnchecked unlinkUnchecked_pad at hg
            simp only at hg
            split at hg
            · cases hg
            · next g1 hw =>
              simp only [reduceCtorEq, if_false, Option.some.injEq] at hg
              rw [← hg]
              rcases wait_some fires _ _ g1 hw with ⟨_, rfl⟩ | ⟨peer, hp, _, _, rfl⟩
              · exact ⟨sf1, sf3, sf4, fun p hp => Or.inl (by rw [← sf2]; exact hp)⟩
              · have hs := shrinks_unlink peer (linkPad_sink s).1
                  (setProcessed peer (linkPad_sink s).2)
                refine ⟨by rw [hs.handlers]; exact sf1, by rw [hs.nextElem]; exact sf3,
                  by rw [hs.pads]; exact sf4, ?_⟩
                intro p hpm
                rw [hs.processed] at hpm
                simp only [setProcessed, List.mem_cons] at hpm
                rcases hpm with rfl | hpm
                · right
                  have := peer_mem _ _ _ hp
                  rw [sink_links] at this
                  exact this
                · exact Or.inl (by rw [← sf2]; exact hpm)
        · cases hu
          exact ⟨sf1, sf3, sf4, fun p hp => Or.inl (by rw [← sf2]; exact hp)⟩
      · cases hu
        exact ⟨sf1, sf3, sf4, fun p hp => Or.inl (by rw [← sf2]; exact hp)⟩
  · simp only [Option.some.injEq, Prod.mk.injEq] at h
    rw [← h.1, ← h.2]
    exact ⟨sf1, sf3, sf4, fun p hp => Or.inl (by rw [← sf2]; exact hp)⟩

theorem fresh_of_resolve (fires : Nat) (s : State) (sink : Pad) (s0 : State)
    (h : linkPad_resolve fires s = some (sink, s0)) (hfresh : FreshElem s.gst) :
    FreshElem s0.gst := by
  obtain ⟨r1, r2, _, r4⟩ := resolve_state fires s sink s0 h
  obtain ⟨_, _, f3, f4⟩ := resolve_frame fires s sink s0 h
  unfold FreshElem
  rw [r1, r2]
  refine ⟨fun l hl => hfresh.1 l (f3.subset hl), hfresh.2.1,
    fun c hc => hfresh.2.2.1 c (f4.subset hc), ?_⟩
  intro p hp
  rcases r4 p hp with h1 | ⟨l, hl, ht⟩
  · exact hfresh.2.2.2 p h1
  · have := hfresh.1 l hl
    simp only [touches, Bool.or_eq_true, decide_eq_true_eq] at ht
    rcases ht with e | e
    · rw [← e]; exact this.1
    · rw [← e]; exact this.2

theorem loopback_sink_free (accepts : Pad → Pad → Bool) (src sinkpad : Pad) (G0 G' : Gst)
    (hsuc : linkPad_loopback accepts src sinkpad G0 = some (true, G')) :
    gst_pad_get_peer G0 sinkpad = none := by
  unfold linkPad_loopback at hsuc
  split at hsuc
  · cases hsuc
  · split at hsuc
    · cases hsuc
    · next container _ =>
      simp only at hsuc
      split at hsuc
      · next hl1 =>
        have := ((link_ok_iff _ _ _ _).mp hl1).2.1
        rw [peer_none_iff] at this ⊢
        rw [insert_links] at this
        exact this
      · cases hsuc


/-- The round trip from the state `s0` in which the link is attempted: a
successful loopback link adds the capsfilter and its two links, and the
matching `unlink` leaves the links and bin contents of `s0`. -/
theorem round_trip_core (accepts : Pad → Pad → Bool) (mediaSrc : MediaSourceImpl) (src : Pad)
    (s0 s1 : State)
    (hpar : mediaSrc.parent = s0.self.parent) (halive : mediaSrc ∈ s0.alive)
    (hfresh : FreshElem s0.gst) (hsrc : src.elem < s0.gst.nextElem)
    (hself : s0.self.element < s0.gst.nextElem)
    (hcbp : s0.gst.handlers.filter (fun h => decide (h.1 = src)) = [])
    (hcbq : s0.gst.handlers.filter
      (fun h => decide (h.1 = ⟨s0.self.element, getPadName s0.self⟩)) = [])
    (hmem : (⟨s0.self.element, getPadName s0.self⟩ : Pad) ∈ s0.gst.pads)
    (hconn : linkPad_connect accepts mediaSrc src ⟨s0.self.element, getPadName s0.self⟩ s0
      = (true, s1)) :
    ∃ c, elemParent s0.gst s0.self.element = some c ∧
      s1.gst.children = (c, s0.gst.nextElem) :: s0.gst.children ∧
      s1.gst.links = (src, ⟨s0.gst.nextElem, "sink"⟩) ::
        (⟨s0.gst.nextElem, "src"⟩, ⟨s0.self.element, getPadName s0.self⟩) :: s0.gst.links ∧
      ∀ (fires' : Nat) (sinkArg : Option Pad),
        (sinkArg = none ∨ sinkArg = some ⟨s0.self.element, getPadName s0.self⟩) →
        ∃ s2, unlink (fires' + 1) (some mediaSrc) sinkArg s1 = some s2 ∧
          s2.gst.children = s0.gst.children ∧ s2.gst.links = s0.gst.links := by
  unfold linkPad_connect linkPad_attempt at hconn
  simp only [hpar, if_true] at hconn
  cases hL : linkPad_loopback accepts src ⟨s0.self.element, getPadName s0.self⟩ s0.gst with
  | none => simp [hL] at hconn
  | some r =>
    obtain ⟨b, G'⟩ := r
    cases b with
    | false => simp [hL] at hconn
    | true =>
      simp only [hL, Prod.mk.injEq, true_and] at hconn
      have hfree := loopback_sink_free accepts src _ s0.gst G' hL
      obtain ⟨c, hc, hlinks, hchildren, hproc, hpads, _, hsrc0, hA⟩ :=
        loopback_success accepts src ⟨s0.self.element, getPadName s0.self⟩ s0.gst G'
          hfresh hsrc hself hcbp hcbq hL
      have hg : s1.gst = G' := by rw [← hconn]
      have hal : s1.alive = s0.alive := by rw [← hconn]
      have hcs : s1.self.connectedSrc = some mediaSrc := by rw [← hconn]
      have hel : s1.self.element = s0.self.element := by rw [← hconn]
      have hpn : getPadName s1.self = getPadName s0.self := by rw [← hconn]; rfl
      rw [hg]
      refine ⟨c, hc, hchildren, hlinks, ?_⟩
      intro fires' sinkArg hArg
      obtain ⟨d1, d2, d3, d4, d5, d6⟩ := hA.distinct
      have hA' : AdapterInserted (setProcessed ⟨s0.gst.nextElem, "src"⟩ G') s0.gst.nextElem c
          src ⟨s0.self.element, getPadName s0.self⟩ :=
        ⟨hA.pad_sink, hA.pad_src, hA.peer_sink, hA.peer_p, hA.peer_src, hA.peer_q, hA.p_elem,
         hA.q_elem, hA.only, hA.cb_sink, hA.cb_src, hA.cb_p, hA.cb_q, hA.parent⟩
      have hnp : (⟨s0.gst.nextElem, "src"⟩ : Pad) ∉ G'.processed := by
        rw [hproc]
        intro hm
        exact lt_irrefl _ (hfresh.2.2.2 _ hm)
      have hw := wait_of_fresh fires' ⟨s0.self.element, getPadName s0.self⟩
        ⟨s0.gst.nextElem, "src"⟩ G' hA.peer_q hnp
      rw [teardown_consumer_first _ _ _ _ _ hA'] at hw
      have hTl : (tornDown (setProcessed ⟨s0.gst.nextElem, "src"⟩ G') s0.gst.nextElem c
          ⟨s0.gst.nextElem, "src"⟩ ⟨s0.self.element, getPadName s0.self⟩ src
          ⟨s0.gst.nextElem, "sink"⟩).links = s0.gst.links := by
        simp only [tornDown, setProcessed, hlinks]
        apply roundtrip_links s0.gst.links src _ _ _ d2 d3 d5 d6
        intro l hl
        exact ⟨(peer_none_iff _ _).mp hsrc0 l hl, (peer_none_iff _ _).mp hfree l hl,
          untouched_of_fresh s0.gst hfresh _ rfl l hl,
          untouched_of_fresh s0.gst hfresh _ rfl l hl⟩
      have hTc : (tornDown (setProcessed ⟨s0.gst.nextElem, "src"⟩ G') s0.gst.nextElem c
          ⟨s0.gst.nextElem, "src"⟩ ⟨s0.self.element, getPadName s0.self⟩ src
          ⟨s0.gst.nextElem, "sink"⟩).children = s0.gst.children := by
        simp only [tornDown, setProcessed, hchildren]
        exact roundtrip_children _ _ _ hfresh.2.2.1
      have hTp := tornDown_peer_none (setProcessed ⟨s0.gst.nextElem, "src"⟩ G') s0.gst.nextElem
        c ⟨s0.gst.nextElem, "src"⟩ ⟨s0.self.element, getPadName s0.self⟩ src
        ⟨s0.gst.nextElem, "sink"⟩ ⟨s0.self.element, getPadName s0.self⟩ (Or.inr (Or.inl rfl))
      have hlock : lock s1 = some mediaSrc := by
        simp [lock, hcs, hal, halive]
      have hpadmem : (⟨s0.self.element, getPadName s0.self⟩ : Pad) ∈ G'.pads := by
        rw [hpads]
        exact List.mem_cons_of_mem _ (List.mem_cons_of_mem _ hmem)
      unfold unlink
      rw [hlock]
      simp only [if_true, hg]
      rcases hArg with rfl | rfl
      · have hpd : unlinkUnchecked_pad s1.self none G'
            = some ⟨s0.self.element, getPadName s0.self⟩ := by
          simp only [unlinkUnchecked_pad, gst_element_get_static_pad, hel, hpn]
          rw [if_pos hpadmem]
        simp only [unlinkUnchecked, hpd, hw, if_true]
        refine ⟨_, rfl, ?_, ?_⟩
        · simp only [removeSink]
          rw [(release_unlinked _ _ _ hTp).2, hTc]
        · simp only [removeSink]
          rw [(release_unlinked _ _ _ hTp).1, hTl]
      · simp only [unlinkUnchecked, unlinkUnchecked_pad, hw, reduceCtorEq, if_false]
        exact ⟨_, rfl, hTc, hTl⟩

/-! ## The claims -/

/-- C1 (as amended): when the endpoint tracks a live producer `P` and
`unlink (P, sink)` returns, the producer's record of this consumer is dropped,
but the Connection Tracker is not cleared: `connectedSrc` is unchanged and
`getConnectedSrc ()` still returns `P`. -/
theorem unlink_keeps_tracker (fires : Nat) (P : MediaSourceImpl) (sink : Option Pad)
    (s s' : State) (hlock : lock s = some P)
    (h : unlink fires (some P) sink s = some s') :
    s'.self = s.self ∧ s'.alive = s.alive ∧ (getConnectedSrc s').1 = some P ∧
    (P, s.self.id) ∉ s'.connectedSinks := by
  unfold unlink at h
  rw [hlock] at h
  simp only [if_true] at h
  split at h
  · cases h
  · next g hg =>
    cases h
    refine ⟨rfl, rfl, ?_, ?_⟩
    · simpa [getConnectedSrc, lock, removeSink] using hlock
    · simp [removeSink]

set_option maxRecDepth 10000 in
/-- C1, instance: the direct link of `stDirect` is unlinked with one run of
the probe. -/
theorem unlink_keeps_tracker_witness :
    lock stDirect = some producerP ∧
    ∃ s', unlink 1 (some producerP) (some padSink) stDirect = some s' ∧
      s'.self = stDirect.self ∧ s'.alive = stDirect.alive ∧
      (getConnectedSrc s').1 = some producerP ∧
      (producerP, stDirect.self.id) ∉ s'.connectedSinks :=
  ⟨by decide, _, rfl,
    unlink_keeps_tracker 1 producerP (some padSink) stDirect _ (by decide) rfl⟩

set_option maxRecDepth 10000 in
/-- C1 as stated fails: `stDirect` is what `linkPad` leaves, it tracks the live
producer `producerP`, the matching `unlink` returns, and afterwards
`getConnectedSrc ()` returns `producerP`, not none. -/
theorem unlink_does_not_clear_tracker :
    linkPad acceptAll 1 producerP padSrc st0 = some (true, stDirect) ∧
    lock stDirect = some producerP ∧
    (unlink 1 (some producerP) (some padSink) stDirect).map
      (fun s' => ((getConnectedSrc s').1, gst_pad_get_peer s'.gst padSink))
      = some (some producerP, none) := by
  decide

/-- C2: `unlink (Q, sink)` with `Q` other than the tracked live producer (also
when nothing is tracked or the tracked producer has expired) returns at once
and leaves the whole state as it was: tracked producer, pad links, producer
records, bin contents and the record of mutations. -/
theorem stale_unlink_noop (fires : Nat) (Q : Option MediaSourceImpl) (sink : Option Pad)
    (s : State) (hstale : ∀ P, lock s = some P → Q ≠ some P) :
    unlink fires Q sink s = some s := by
  unfold unlink
  split
  · next P hP => simp [hstale P hP]
  · rfl

/-- C2, instance: `producerL` is not the producer tracked in `stDirect`. -/
theorem stale_unlink_noop_witness :
    (∀ P, lock stDirect = some P → some producerL ≠ some P) ∧
    unlink 1 (some producerL) (some padSink) stDirect = some stDirect :=
  have h : ∀ P, lock stDirect = some P → some producerL ≠ some P := by
    intro P hP hQ
    have h1 : lock stDirect = some producerP := by decide
    rw [h1] at hP
    rw [← Option.some.inj hP] at hQ
    exact absurd (Option.some.inj hQ) (by decide)
  ⟨h, stale_unlink_noop 1 (some producerL) (some padSink) stDirect h⟩

/-- C8: `getConnectedSrc ()` returns none when nothing is recorded or the
recorded producer has expired, the recorded producer when it is alive, and
leaves the state unchanged. -/
theorem getConnectedSrc_resolves (s : State) :
    (s.self.connectedSrc = none → (getConnectedSrc s).1 = none) ∧
    (∀ P, s.self.connectedSrc = some P → P ∉ s.alive → (getConnectedSrc s).1 = none) ∧
    (∀ P, s.self.connectedSrc = some P → P ∈ s.alive → (getConnectedSrc s).1 = some P) ∧
    (getConnectedSrc s).2 = s := by
  refine ⟨?_, ?_, ?_, rfl⟩
  · intro h; simp [getConnectedSrc, lock, h]
  · intro P h hd; simp [getConnectedSrc, lock, h, hd]
  · intro P h ha; simp [getConnectedSrc, lock, h, ha]

/-- C8, instances: the producer of `stDirect` alive, and expired. -/
theorem getConnectedSrc_resolves_witness :
    (getConnectedSrc stDirect).1 = some producerP ∧
    (getConnectedSrc stExpired).1 = none ∧
    (getConnectedSrc st0).1 = none :=
  ⟨(getConnectedSrc_resolves stDirect).2.2.1 producerP rfl (by decide),
   (getConnectedSrc_resolves stExpired).2.1 producerP rfl
     (by decide),
   (getConnectedSrc_resolves st0).1 rfl⟩


/-- C7 (as amended): for an `unlinkUnchecked` call on a consuming pad with a
peer, (1) when the peer's "processed" datum is not set, the first run of the
probe callback severs the link and signals the waiting caller, and the call
returns; (2) whenever the call returns, the consuming pad has no peer;
(3) when the peer's "processed" datum is already set, the callback neither
severs nor signals and the call never returns. -/
theorem quiescent_sever (self : MediaSinkImpl) (fires : Nat) (sink : Option Pad)
    (sinkPad peer : Pad) (g : Gst)
    (hpad : unlinkUnchecked_pad self sink g = some sinkPad)
    (hpeer : gst_pad_get_peer g sinkPad = some peer)
    (hmut : gst_pad_get_peer g peer = some sinkPad) :
    (peer ∉ g.processed →
      gst_pad_get_peer (pad_blocked_adaptor peer (blockedLambda sinkPad)
        (g, { blocked := false, signals := 0 })).2.1 sinkPad = none ∧
      (pad_blocked_adaptor peer (blockedLambda sinkPad)
        (g, { blocked := false, signals := 0 })).2.2 = { blocked := true, signals := 1 } ∧
      ∃ g', unlinkUnchecked self (fires + 1) sink g = some g' ∧
        gst_pad_get_peer g' sinkPad = none) ∧
    (∀ g', unlinkUnchecked self fires sink g = some g' →
      gst_pad_get_peer g' sinkPad = none) ∧
    (peer ∈ g.processed →
      (pad_blocked_adaptor peer (blockedLambda sinkPad)
        (g, { blocked := false, signals := 0 })).2 = (g, { blocked := false, signals := 0 }) ∧
      unlinkUnchecked self fires sink g = none) := by
  have hmut' : mutualPeer g sinkPad = true := by simp [mutualPeer, hpeer, hmut]
  have hret : ∀ n g', unlinkUnchecked self n sink g = some g' →
      gst_pad_get_peer g' sinkPad = none := by
    intro n g' h
    unfold unlinkUnchecked at h
    rw [hpad] at h
    simp only at h
    split at h
    · cases h
    · next g1 hw =>
      have h1 := wait_severs n sinkPad g g1 hmut' hw
      split at h
      · cases h; exact release_peer_none _ _ _ _ h1
      · cases h; exact h1
  refine ⟨?_, hret fires, ?_⟩
  · intro hfresh
    have hsev := unlink_severs peer sinkPad (setProcessed peer g) hmut
    refine ⟨?_, ?_, ?_⟩
    · simpa [pad_blocked_adaptor, hfresh, blockedLambda] using hsev.2
    · simp [pad_blocked_adaptor, hfresh, blockedLambda]
    · have hw := wait_of_fresh fires sinkPad peer g hpeer hfresh
      have hex : ∃ g', unlinkUnchecked self (fires + 1) sink g = some g' := by
        unfold unlinkUnchecked
        rw [hpad]
        simp only [hw]
        split <;> exact ⟨_, rfl⟩
      obtain ⟨g', hg'⟩ := hex
      exact ⟨g', hg', hret _ _ hg'⟩
  · intro hproc
    refine ⟨by simp [pad_blocked_adaptor, hproc], ?_⟩
    simp [unlinkUnchecked, hpad, wait_of_processed fires sinkPad peer g hpeer hproc]

set_option maxRecDepth 10000 in
/-- C7, instance: the direct link of `stDirect`, whose peer `padSrc` has not
been processed, with three runs of the probe. -/
theorem quiescent_sever_witness :
    gst_pad_get_peer stDirect.gst padSink = some padSrc ∧
    padSrc ∉ stDirect.gst.processed ∧
    ∃ g', unlinkUnchecked stDirect.self 3 (some padSink) stDirect.gst = some g' ∧
      gst_pad_get_peer g' padSink = none :=
  ⟨by decide, by decide,
   ((quiescent_sever stDirect.self 2 (some padSink) padSink padSrc stDirect.gst rfl
      (by decide) (by decide)).1 (by decide)).2.2⟩

set_option maxRecDepth 10000 in
/-- C7 as stated fails on a peer pad used by an earlier unlink: from `stDirect`
the matching `unlink` returns, `linkPad` links the same pads again
(`stRelinked`), and then the first run of the probe callback severs nothing
and signals nothing, so `unlinkUnchecked` never returns, however often the
probe runs. -/
theorem quiescent_sever_fails_on_processed_peer :
    (unlink 1 (some producerP) (some padSink) stDirect).bind
      (fun s => linkPad acceptAll 1 producerP padSrc s)
      = some (true, stRelinked) ∧
    gst_pad_get_peer stRelinked.gst padSink = some padSrc ∧
    (pad_blocked_adaptor padSrc (blockedLambda padSink)
        (stRelinked.gst, { blocked := false, signals := 0 })).2
      = (stRelinked.gst, { blocked := false, signals := 0 }) ∧
    unlinkUnchecked stRelinked.self 1 (some padSink) stRelinked.gst = none ∧
    unlinkUnchecked stRelinked.self 7 (some padSink) stRelinked.gst = none := by
  decide

/-- C9: every run of `pad_blocked_adaptor` returns GST_PAD_PROBE_REMOVE and a
run on a pad whose "processed" datum is set changes nothing, whatever the
handler; when the probe callback runs two or more times for one unlink
request, the state after all the runs is the state after the first one (later
runs change no link, nor anything else), the handler is run at most once and
its `gst_pad_unlink` and `cond.signal ()` are performed at most once. -/
theorem duplicate_firing_noop (pad sinkPad : Pad) (g : Gst) (w : Wait) (n : Nat) :
    (∀ (κ : Type) (handler : Pad → Gst × κ → Gst × κ) (st : Gst × κ),
      (pad_blocked_adaptor pad handler st).1 = GstPadProbeReturn.GST_PAD_PROBE_REMOVE ∧
      (pad ∈ st.1.processed → (pad_blocked_adaptor pad handler st).2 = st)) ∧
    fireProbe pad (blockedLambda sinkPad) (n + 2) (g, w)
      = (pad_blocked_adaptor pad (blockedLambda sinkPad) (g, w)).2 ∧
    handlerRuns pad (fireProbe pad (blockedLambda sinkPad) (n + 2) (g, w)).1.trace
      ≤ handlerRuns pad g.trace + 1 ∧
    (fireProbe pad (blockedLambda sinkPad) (n + 2) (g, w)).2.signals ≤ w.signals + 1 := by
  refine ⟨fun κ handler st => ⟨pad_blocked_adaptor_ret pad handler st, fun hp => by
      simp [pad_blocked_adaptor, hp]⟩, fireProbe_succ pad sinkPad (n + 1) (g, w), ?_, ?_⟩
  · rw [fireProbe_succ pad sinkPad (n + 1) (g, w)]
    unfold pad_blocked_adaptor
    split
    · exact Nat.le_succ _
    · unfold blockedLambda
      split
      · simp [handlerRuns, setProcessed]
      · simp only
        rw [handlerRuns_shrinks (shrinks_unlink pad sinkPad (setProcessed pad g)) pad]
        simp [handlerRuns, setProcessed]
  · rw [fireProbe_succ pad sinkPad (n + 1) (g, w)]
    unfold pad_blocked_adaptor
    split
    · exact Nat.le_succ _
    · unfold blockedLambda
      split
      · exact Nat.le_succ _
      · exact Nat.le_refl _


/-- C5: when `linkPad (mediaSrc, src)` returns, it returns true exactly when
the links it attempts succeed, that is the direct link when the parents
differ, and both capsfilter links (with the container resolved) when the
parents are the same; and when it returns true the links are in place and the Connection Tracker
records `mediaSrc` and nothing else, so that `getConnectedSrc ()` returns
`mediaSrc` while it is alive. -/
theorem linkPad_success (accepts : Pad → Pad → Bool) (fires : Nat) (mediaSrc : MediaSourceImpl)
    (src : Pad) (s : State) (ret : Bool) (s' : State)
    (h : linkPad accepts fires mediaSrc src s = some (ret, s')) :
    ∃ sink s1, linkPad_resolve fires s = some (sink, s1) ∧
      (ret = true ↔
        (mediaSrc.parent ≠ s.self.parent ∧
          (gst_pad_link accepts src sink s1.gst).1 = GstPadLinkReturn.GST_PAD_LINK_OK) ∨
        (mediaSrc.parent = s.self.parent ∧
          ∃ parent container, padParent s1.gst sink = some parent ∧
            elemParent s1.gst parent = some container ∧
            (gst_pad_link accepts ⟨(linkPad_insert container s1.gst).1, "src"⟩ sink
              (linkPad_insert container s1.gst).2).1 = GstPadLinkReturn.GST_PAD_LINK_OK ∧
            (gst_pad_link accepts src ⟨(linkPad_insert container s1.gst).1, "sink"⟩
              (gst_pad_link accepts ⟨(linkPad_insert container s1.gst).1, "src"⟩ sink
                (linkPad_insert container s1.gst).2).2).1
              = GstPadLinkReturn.GST_PAD_LINK_OK)) ∧
      (ret = true →
        s'.self.connectedSrc = some mediaSrc ∧
        (mediaSrc ∈ s.alive → (getConnectedSrc s').1 = some mediaSrc) ∧
        (mediaSrc.parent ≠ s.self.parent → (src, sink) ∈ s'.gst.links) ∧
        (mediaSrc.parent = s.self.parent →
          (src, (⟨s1.gst.nextElem, "sink"⟩ : Pad)) ∈ s'.gst.links ∧
          ((⟨s1.gst.nextElem, "src"⟩ : Pad), sink) ∈ s'.gst.links)) := by
  unfold linkPad at h
  split at h
  · cases h
  · next sink s1 hres =>
    have hfr := resolve_frame fires s sink s1 hres
    refine ⟨sink, s1, hres, ?_⟩
    simp only [Option.some.injEq] at h
    by_cases hpar : mediaSrc.parent = s.self.parent
    · -- loopback
      have hpar1 : mediaSrc.parent = s1.self.parent := by rw [hfr.1]; exact hpar
      unfold linkPad_connect linkPad_attempt at h
      simp only [hpar1, if_true] at h
      unfold linkPad_loopback at h
      cases hpp : padParent s1.gst sink with
      | none =>
        simp only [hpp] at h
        cases h
        simp [hpar, hpp]
      | some parent =>
        cases hep : elemParent s1.gst parent with
        | none =>
          simp only [hpp, hep] at h
          cases h
          simp [hpar, hpp, hep]
        | some container =>
          simp only [hpp, hep] at h
          by_cases hl1 : (gst_pad_link accepts ⟨(linkPad_insert container s1.gst).1, "src"⟩ sink
              (linkPad_insert container s1.gst).2).1 = GstPadLinkReturn.GST_PAD_LINK_OK
          · by_cases hl2 : (gst_pad_link accepts src ⟨(linkPad_insert container s1.gst).1, "sink"⟩
                (gst_pad_link accepts ⟨(linkPad_insert container s1.gst).1, "src"⟩ sink
                  (linkPad_insert container s1.gst).2).2).1 = GstPadLinkReturn.GST_PAD_LINK_OK
            · simp only [hl1, hl2, if_true] at h
              cases h
              refine ⟨by simp [hpar, hpp, hep, hl1, hl2], fun _ => ⟨rfl, ?_, ?_, ?_⟩⟩
              · intro ha
                simp [getConnectedSrc, lock, hfr.2.1, ha]
              · intro hne; exact absurd hpar hne
              · intro _
                simp only
                rw [link_links_ok _ _ _ _ hl2, link_links_ok _ _ _ _ hl1]
                simp [linkPad_insert, gst_element_factory_make]
            · simp only [hl1, hl2, if_true, if_false] at h
              cases h
              simp [hpar, hpp, hep, hl1, hl2]
          · simp only [hl1, if_false] at h
            cases h
            simp [hpar, hpp, hep, hl1]
    · -- direct link
      have hpar1 : mediaSrc.parent ≠ s1.self.parent := by rw [hfr.1]; exact hpar
      unfold linkPad_connect linkPad_attempt at h
      simp only [hpar1, if_false] at h
      by_cases hl : (gst_pad_link accepts src sink s1.gst).1 = GstPadLinkReturn.GST_PAD_LINK_OK
      · simp only [hl, decide_True] at h
        cases h
        refine ⟨by simp [hpar, hl], fun _ => ⟨rfl, ?_, ?_, ?_⟩⟩
        · intro ha
          simp [getConnectedSrc, lock, hfr.2.1, ha]
        · intro _
          simp only
          rw [link_links_ok _ _ _ _ hl]
          simp
        · intro he; exact absurd he hpar
      · simp only [hl, decide_False] at h
        cases h
        simp [hpar, hl]


set_option maxRecDepth 10000 in
/-- C5, instance: the direct link of `producerP` from `st0`. -/
theorem linkPad_success_witness :
    linkPad acceptAll 1 producerP padSrc st0 = some (true, stDirect) ∧
    stDirect.self.connectedSrc = some producerP ∧
    (getConnectedSrc stDirect).1 = some producerP :=
  have h : linkPad acceptAll 1 producerP padSrc st0 = some (true, stDirect) := by decide
  match linkPad_success acceptAll 1 producerP padSrc st0 true stDirect h with
  | ⟨_, _, _, _, hs⟩ => ⟨h, (hs rfl).1, (hs rfl).2.1 (by decide)⟩

/-- C3 (as amended): when `linkPad` returns false, the tracked producer is
unchanged and no pad link has been added: every link present afterwards was
present before, so nothing is left partially linked.  A link the consuming
pad had before the call is not kept by design (it is severed first when the
tracked producer is alive).  When the consuming pad had no peer before the
call and the link is a direct one, the links and the bin contents are
exactly as before, and a consuming pad requested by this call has been
released; the same holds in the loopback case when the container is resolved
and it is the second capsfilter link that is refused (the first one is
rolled back and the capsfilter leaves the container). -/
theorem linkPad_failure (accepts : Pad → Pad → Bool) (fires : Nat) (mediaSrc : MediaSourceImpl)
    (src : Pad) (s s' : State)
    (h : linkPad accepts fires mediaSrc src s = some (false, s')) :
    s'.self = s.self ∧ s'.alive = s.alive ∧
    (getConnectedSrc s').1 = (getConnectedSrc s).1 ∧
    s'.gst.links.Sublist s.gst.links ∧
    (mediaSrc.parent ≠ s.self.parent →
      gst_pad_get_peer s.gst ⟨s.self.element, getPadName s.self⟩ = none →
      s'.gst.links = s.gst.links ∧ s'.gst.children = s.gst.children ∧
      (gst_element_get_static_pad s.gst s.self.element (getPadName s.self) = none →
        s'.gst.pads = s.gst.pads ∧ s'.gst.request = s.gst.request)) ∧
    (mediaSrc.parent = s.self.parent →
      gst_pad_get_peer s.gst ⟨s.self.element, getPadName s.self⟩ = none →
      FreshElem s.gst → s.self.element < s.gst.nextElem →
      s.gst.handlers.filter
        (fun h => decide (h.1 = ⟨s.self.element, getPadName s.self⟩)) = [] →
      elemParent s.gst s.self.element ≠ none →
      accepts ⟨s.gst.nextElem, "src"⟩ ⟨s.self.element, getPadName s.self⟩ = true →
      s'.gst.links = s.gst.links ∧ s'.gst.children = s.gst.children ∧
      (gst_element_get_static_pad s.gst s.self.element (getPadName s.self) = none →
        s'.gst.request = s.gst.request)) := by
  unfold linkPad at h
  split at h
  · cases h
  · next sink s1 hres =>
    have hfr := resolve_frame fires s sink s1 hres
    have hsink := resolve_pad fires s sink s1 hres
    simp only [Option.some.injEq] at h
    have key : s'.self = s.self ∧ s'.alive = s.alive ∧ s'.gst.links.Sublist s.gst.links := by
      by_cases hpar : mediaSrc.parent = s1.self.parent
      · unfold linkPad_connect linkPad_attempt at h
        simp only [hpar, if_true] at h
        unfold linkPad_loopback at h
        cases hpp : padParent s1.gst sink with
        | none =>
          simp only [hpp] at h
          cases h
          exact ⟨hfr.1, hfr.2.1, hfr.2.2.1⟩
        | some parent =>
          cases hep : elemParent s1.gst parent with
          | none =>
            simp only [hpp, hep] at h
            cases h
            exact ⟨hfr.1, hfr.2.1, hfr.2.2.1⟩
          | some container =>
            simp only [hpp, hep] at h
            by_cases hl1 : (gst_pad_link accepts ⟨(linkPad_insert container s1.gst).1, "src"⟩
                sink (linkPad_insert container s1.gst).2).1 = GstPadLinkReturn.GST_PAD_LINK_OK
            · by_cases hl2 : (gst_pad_link accepts src
                  ⟨(linkPad_insert container s1.gst).1, "sink"⟩
                  (gst_pad_link accepts ⟨(linkPad_insert container s1.gst).1, "src"⟩ sink
                    (linkPad_insert container s1.gst).2).2).1
                  = GstPadLinkReturn.GST_PAD_LINK_OK
              · simp only [hl1, hl2, if_true] at h
                cases h
              · simp only [hl1, hl2, if_true, if_false] at h
                have h2 := (Prod.mk.inj h).2
                subst h2
                refine ⟨hfr.1, hfr.2.1, ?_⟩
                refine ((release_links_sublist _ _ _).trans ?_).trans hfr.2.2.1
                apply unlink_head_sublist
                rw [link_links_fail _ _ _ _ hl2, link_links_ok _ _ _ _ hl1, insert_links]
            · simp only [hl1, if_false] at h
              have h2 := (Prod.mk.inj h).2
              subst h2
              refine ⟨hfr.1, hfr.2.1, ?_⟩
              refine ((release_links_sublist _ _ _).trans ?_).trans hfr.2.2.1
              rw [link_links_fail _ _ _ _ hl1, insert_links]
      · unfold linkPad_connect linkPad_attempt at h
        simp only [hpar, if_false] at h
        by_cases hl : (gst_pad_link accepts src sink s1.gst).1 = GstPadLinkReturn.GST_PAD_LINK_OK
        · simp only [hl, decide_True] at h
          cases h
        · simp only [hl, decide_False] at h
          have h2 := (Prod.mk.inj h).2
          subst h2
          refine ⟨hfr.1, hfr.2.1, ?_⟩
          refine ((release_links_sublist _ _ _).trans ?_).trans hfr.2.2.1
          rw [link_links_fail _ _ _ _ hl]
    refine ⟨key.1, key.2.1, ?_, key.2.2, ?_, ?_⟩
    · simp [getConnectedSrc, lock, key.1, key.2.1]
    rotate_left
    · intro hpar hun hfresh hself hcbq hcont hacc
      obtain ⟨sf1, sf2, sf3, sf4⟩ := sink_fields s
      have hfresh0 : FreshElem (linkPad_sink s).2 := by
        unfold FreshElem
        rw [sink_links, sink_children, sf1, sf2, sf3]
        exact hfresh
      rw [resolve_unlinked fires s hun] at hres
      have hs1 := (Prod.mk.inj (Option.some.inj hres)).2
      subst hs1
      unfold linkPad_connect linkPad_attempt at h
      simp only [hpar, if_true] at h
      rw [hsink] at h
      rw [sink_pad] at sf4
      have hfree0 : gst_pad_get_peer (linkPad_sink s).2 ⟨s.self.element, getPadName s.self⟩
          = none := by rw [sink_peer]; exact hun
      cases hL : linkPad_loopback accepts src ⟨s.self.element, getPadName s.self⟩
          (linkPad_sink s).2 with
      | none =>
        exfalso
        unfold linkPad_loopback at hL
        have hpp : padParent (linkPad_sink s).2 ⟨s.self.element, getPadName s.self⟩
            = some s.self.element := by simp [padParent, sf4]
        have hep : elemParent (linkPad_sink s).2 s.self.element
            = elemParent s.gst s.self.element := by
          unfold elemParent; rw [sink_children]
        rw [hpp] at hL
        simp only [hep] at hL
        cases hc : elemParent s.gst s.self.element with
        | none => exact hcont hc
        | some c =>
          rw [hc] at hL
          simp only at hL
          split at hL
          · split at hL <;> cases hL
          · cases hL
      | some r =>
        obtain ⟨b, G'⟩ := r
        cases b with
        | true => simp [hL] at h
        | false =>
          simp only [hL, Prod.mk.injEq, true_and] at h
          obtain ⟨r1, r2, r3, r4⟩ := loopback_rollback accepts src _ _ G' hfresh0
            (by rw [sf3]; exact hself) hfree0 (by rw [sf1]; exact hcbq)
            (by rw [sf3]; exact hacc) hL
          rw [sink_links] at r1
          rw [sink_children] at r2
          have hpeer : gst_pad_get_peer G' ⟨s.self.element, getPadName s.self⟩ = none := by
            rw [peer_none_iff, r1]; exact (peer_none_iff _ _).mp hun
          have hrel := release_unlinked s.self.element ⟨s.self.element, getPadName s.self⟩
            G' hpeer
          rw [← h]
          refine ⟨by simp only; rw [hrel.1, r1], by simp only; rw [hrel.2, r2], ?_⟩
          intro hnone
          have hf : G'.links.find? (touches ⟨s.self.element, getPadName s.self⟩) = none := by
            unfold gst_pad_get_peer at hpeer
            split at hpeer
            · cases hpeer
            · assumption
          have hreq : (linkPad_sink s).2.request
              = ⟨s.self.element, getPadName s.self⟩ :: s.gst.request := by
            simp [linkPad_sink, hnone, gst_element_get_request_pad]
          simp only [gst_element_release_request_pad, gst_element_remove_pad, hf, r3, hreq]
          simp
    · intro hpar hun
      rw [resolve_unlinked fires s hun] at hres
      have hs1 := (Prod.mk.inj (Option.some.inj hres)).2
      have hsk := (Prod.mk.inj (Option.some.inj hres)).1
      subst hs1
      have hpar1 : ¬ mediaSrc.parent = s.self.parent := hpar
      unfold linkPad_connect linkPad_attempt at h
      simp only [hpar1, if_false] at h
      by_cases hl : (gst_pad_link accepts src sink (linkPad_sink s).2).1
          = GstPadLinkReturn.GST_PAD_LINK_OK
      · simp only [hl, decide_True] at h
        cases h
      · simp only [hl, decide_False] at h
        have h2 := (Prod.mk.inj h).2
        subst h2
        have hlk := link_links_fail _ _ _ _ hl
        have hfrm := link_frame accepts src sink (linkPad_sink s).2
        have hpeer : gst_pad_get_peer (gst_pad_link accepts src sink (linkPad_sink s).2).2 sink
            = none := by
          unfold gst_pad_get_peer
          rw [hlk, sink_links, hsink]
          exact hun
        have hrel := release_unlinked s.self.element sink _ hpeer
        refine ⟨?_, ?_, ?_⟩
        · simp only; rw [hrel.1, hlk, sink_links]
        · simp only; rw [hrel.2, hfrm.1, sink_children]
        · intro hnone
          have hf : (gst_pad_link accepts src sink (linkPad_sink s).2).2.links.find?
              (touches sink) = none := by
            unfold gst_pad_get_peer at hpeer
            split at hpeer
            · cases hpeer
            · assumption
          have hp2 : (linkPad_sink s).2.pads = sink :: s.gst.pads ∧
              (linkPad_sink s).2.request = sink :: s.gst.request := by
            rw [hsink]
            simp [linkPad_sink, hnone, gst_element_get_request_pad]
          have hel : sink.elem = s.self.element := by rw [hsink]
          simp only [gst_element_release_request_pad, gst_element_remove_pad, hf, hfrm.2.1,
            hfrm.2.2.1, hp2.1, hp2.2, hel]
          simp


set_option maxRecDepth 10000 in
/-- C3, instance: a refused direct link from `st0`, where the pad had no peer. -/
theorem linkPad_failure_witness :
    ∃ s', linkPad acceptNone 1 producerQ padSrcQ st0 = some (false, s') ∧
      s'.self = st0.self ∧ s'.gst.links = st0.gst.links ∧
      s'.gst.children = st0.gst.children :=
  ⟨_, rfl,
    (linkPad_failure acceptNone 1 producerQ padSrcQ st0 _ rfl).1,
    ((linkPad_failure acceptNone 1 producerQ padSrcQ st0 _ rfl).2.2.2.2.1
      (by decide) (by decide)).1,
    ((linkPad_failure acceptNone 1 producerQ padSrcQ st0 _ rfl).2.2.2.2.1
      (by decide) (by decide)).2.1⟩

set_option maxRecDepth 10000 in
/-- C3 as stated fails: in `stDirect` the consuming pad is linked to `padSrc`;
`linkPad` for `producerQ`, whose link is refused, returns false, and the link
that existed before the call is gone (as is the producer's record), while
`producerP` is still tracked. -/
theorem linkPad_failure_severs_previous_link :
    gst_pad_get_peer stDirect.gst padSink = some padSrc ∧
    (linkPad acceptNone 1 producerQ padSrcQ stDirect).map
      (fun r => (r.1, gst_pad_get_peer r.2.gst padSink, r.2.gst.links))
      = some (false, none, []) ∧
    (linkPad acceptNone 1 producerQ padSrcQ stDirect).map
      (fun r => (r.2.connectedSinks, (getConnectedSrc r.2).1))
      = some ([], some producerP) := by
  decide

/-- C4 (as amended), for a consuming pad that has a peer with a mutual link.
(1) When the tracked producer is alive: if the peer's "processed" datum is
not set, then `linkPad`, with at least one run of the probe, returns and has
severed the old link before it attempts the new one (the attempt is made on a
pad without peer); if the datum is set, or the probe never runs, the unlink
step waits for ever, `linkPad` does not return and severs nothing; and
whenever the resolution step returns, the pad has no peer.
(2) When nothing live is tracked (expired or none): the unlink step does
nothing, the new link is attempted on the linked pad and refused, and
`linkPad` returns false; afterwards the old link is still in place when the
consuming pad is not a request pad, or when the container of the loopback is
not resolved (jump to `end`), whereas for a request pad (one the element
already had, or one this call had to request) the release on the failure
path removes the pad and with it the old link.
(3) In every state of the tracker a consuming pad with at most one link has
at most one link after `linkPad`. -/
theorem replace_semantics (accepts : Pad → Pad → Bool) (fires : Nat)
    (mediaSrc : MediaSourceImpl) (src : Pad) (s : State) :
    (∀ P peer, lock s = some P →
      gst_pad_get_peer s.gst ⟨s.self.element, getPadName s.self⟩ = some peer →
      gst_pad_get_peer s.gst peer = some ⟨s.self.element, getPadName s.self⟩ →
      (peer ∉ s.gst.processed →
        ∃ s1, linkPad_resolve (fires + 1) s
            = some (⟨s.self.element, getPadName s.self⟩, s1) ∧
          gst_pad_get_peer s1.gst ⟨s.self.element, getPadName s.self⟩ = none ∧
          linkPad accepts (fires + 1) mediaSrc src s
            = some (linkPad_connect accepts mediaSrc src
                ⟨s.self.element, getPadName s.self⟩ s1)) ∧
      (peer ∈ s.gst.processed →
        linkPad_resolve fires s = none ∧ linkPad accepts fires mediaSrc src s = none) ∧
      (linkPad_resolve 0 s = none ∧ linkPad accepts 0 mediaSrc src s = none)) ∧
    (∀ sink s1, (lock s).isSome = true →
      mutualPeer s.gst ⟨s.self.element, getPadName s.self⟩ = true →
      linkPad_resolve fires s = some (sink, s1) →
      sink = ⟨s.self.element, getPadName s.self⟩ ∧ gst_pad_get_peer s1.gst sink = none) ∧
    (lock s = none →
      gst_pad_is_linked s.gst ⟨s.self.element, getPadName s.self⟩ = true →
      ∃ s1 s', linkPad_resolve fires s = some (⟨s.self.element, getPadName s.self⟩, s1) ∧
        s1.gst.links = s.gst.links ∧
        linkPad accepts fires mediaSrc src s = some (false, s') ∧
        ((⟨s.self.element, getPadName s.self⟩ : Pad) ∈ s.gst.pads →
          (⟨s.self.element, getPadName s.self⟩ : Pad) ∉ s.gst.request →
          s'.gst.links = s.gst.links) ∧
        (mediaSrc.parent = s.self.parent → elemParent s.gst s.self.element = none →
          s'.gst.links = s.gst.links) ∧
        (((⟨s.self.element, getPadName s.self⟩ : Pad) ∈ s.gst.request ∨
            (⟨s.self.element, getPadName s.self⟩ : Pad) ∉ s.gst.pads) →
          mutualPeer s.gst ⟨s.self.element, getPadName s.self⟩ = true →
          (mediaSrc.parent ≠ s.self.parent ∨ elemParent s.gst s.self.element ≠ none) →
          gst_pad_get_peer s'.gst ⟨s.self.element, getPadName s.self⟩ = none)) ∧
    (∀ ret s', linkPad accepts fires mediaSrc src s = some (ret, s') →
      peerCount s.gst ⟨s.self.element, getPadName s.self⟩ ≤ 1 →
      peerCount s'.gst ⟨s.self.element, getPadName s.self⟩ ≤ 1) := by
  obtain ⟨sf1, sf2, sf3, sf4⟩ := sink_fields s
  refine ⟨?_, (resolve_and_count accepts fires mediaSrc src s).1, ?_,
    (resolve_and_count accepts fires mediaSrc src s).2.2⟩
  · intro P peer hlock hpeer hmut
    have hpeer0 : gst_pad_get_peer (linkPad_sink s).2 ⟨s.self.element, getPadName s.self⟩
        = some peer := by rw [sink_peer]; exact hpeer
    refine ⟨?_, ?_, ?_⟩
    · intro hfresh
      have hw := wait_of_fresh fires _ peer (linkPad_sink s).2 hpeer0
        (by rw [sf2]; exact hfresh)
      have hres := resolve_live (fires + 1) s P peer hlock hpeer
      rw [hw] at hres
      simp only [Option.map_some'] at hres
      refine ⟨_, hres, ?_, linkPad_of_resolve_some accepts _ mediaSrc src s _ _ hres⟩
      have hm : gst_pad_get_peer (setProcessed peer (linkPad_sink s).2) peer
          = some ⟨s.self.element, getPadName s.self⟩ := by
        rw [peer_setProcessed, sink_peer]; exact hmut
      exact (unlink_severs peer _ _ hm).2
    · intro hproc
      have hw := wait_of_processed fires _ peer (linkPad_sink s).2 hpeer0
        (by rw [sf2]; exact hproc)
      have hres := resolve_live fires s P peer hlock hpeer
      rw [hw] at hres
      exact ⟨hres, linkPad_of_resolve_none accepts fires mediaSrc src s hres⟩
    · have hw := wait_zero _ peer (linkPad_sink s).2 hpeer0
      have hres := resolve_live 0 s P peer hlock hpeer
      rw [hw] at hres
      exact ⟨hres, linkPad_of_resolve_none accepts 0 mediaSrc src s hres⟩
  · intro hlock hlinked
    have hres := resolve_stale fires s hlock
    rw [sink_pad] at hres
    rw [sink_pad] at sf4
    have hne : gst_pad_get_peer ({ s with gst := (linkPad_sink s).2 } : State).gst
        ⟨s.self.element, getPadName s.self⟩ ≠ none := by
      simp only [sink_peer]
      intro hn
      rw [(is_linked_false_iff _ _).mpr hn] at hlinked
      cases hlinked
    have hep : elemParent (linkPad_sink s).2 s.self.element
        = elemParent s.gst s.self.element := by
      unfold elemParent; rw [sink_children]
    refine ⟨_, (linkPad_connect accepts mediaSrc src ⟨s.self.element, getPadName s.self⟩
      { s with gst := (linkPad_sink s).2 }).2, hres, sink_links s, ?_, ?_, ?_, ?_⟩
    · rw [linkPad_of_resolve_some accepts fires mediaSrc src s _ _ hres]
      have := connect_false_of_linked accepts mediaSrc src _ _ hne
      exact congrArg some (Prod.ext this rfl)
    · intro hmem hnreq
      rw [connect_stale_links accepts mediaSrc src _ _ hne
        (by simp only [sink_static s hmem]; exact hnreq)]
      exact sink_links s
    · intro hpar hcont
      have hA := attempt_none_of_unresolved accepts mediaSrc s.self src
        ⟨s.self.element, getPadName s.self⟩ (linkPad_sink s).2 hpar (by rw [hep]; exact hcont)
      simp only [linkPad_connect, hA]
      exact sink_links s
    · intro hreq hmutual hresv
      cases hp : gst_pad_get_peer s.gst ⟨s.self.element, getPadName s.self⟩ with
      | none => rw [(is_linked_false_iff _ _).mpr hp] at hlinked; cases hlinked
      | some peer =>
        have hm : gst_pad_get_peer s.gst peer = some ⟨s.self.element, getPadName s.self⟩ := by
          simpa [mutualPeer, hp] using hmutual
        exact connect_stale_severs accepts mediaSrc src _ peer
          { s with gst := (linkPad_sink s).2 } (by simp only [sink_peer]; exact hp)
          (by simp only [sink_peer]; exact hm) (sink_request s hreq) rfl sf4
          (by
            rcases hresv with h | h
            · exact Or.inl h
            · exact Or.inr (by simp only [hep]; exact h))

set_option maxRecDepth 10000 in
/-- C4, instances: in `stDirect` (live tracked producer, peer not processed)
`linkPad` returns and the new link is attempted on a pad without peer; in
`stRelinked` (peer processed) it does not return; in `stExpired` (nothing
live tracked, static pad) it returns false and the old link is in place; in
`stExpiredReq` (the same with a request pad) the release removes the link. -/
theorem replace_semantics_witness :
    (∃ s1, linkPad_resolve 1 stDirect = some (padSink, s1) ∧
      gst_pad_get_peer s1.gst padSink = none ∧
      linkPad acceptAll 1 producerQ padSrcQ stDirect
        = some (linkPad_connect acceptAll producerQ padSrcQ padSink s1)) ∧
    linkPad acceptAll 5 producerQ padSrcQ stRelinked = none ∧
    (∃ s', linkPad acceptAll 1 producerQ padSrcQ stExpired = some (false, s') ∧
      s'.gst.links = stExpired.gst.links) ∧
    (∃ s', linkPad acceptAll 1 producerQ padSrcQ stExpiredReq = some (false, s') ∧
      gst_pad_get_peer s'.gst padSink = none) :=
  ⟨((replace_semantics acceptAll 0 producerQ padSrcQ stDirect).1 producerP padSrc
      (by decide) (by decide) (by decide)).1 (by decide),
   (((replace_semantics acceptAll 5 producerQ padSrcQ stRelinked).1 producerP padSrc
      (by decide) (by decide) (by decide)).2.1 (by decide)).2,
   match (replace_semantics acceptAll 1 producerQ padSrcQ stExpired).2.2.1
      (by decide) (by decide) with
   | ⟨_, s', _, _, hl, hstatic, _, _⟩ => ⟨s', hl, hstatic (by decide) (by decide)⟩,
   match (replace_semantics acceptAll 1 producerQ padSrcQ stExpiredReq).2.2.1
      (by decide) (by decide) with
   | ⟨_, s', _, _, hl, _, _, hreq⟩ =>
     ⟨s', hl, hreq (Or.inl (by decide)) (by decide) (Or.inl (by decide))⟩⟩

set_option maxRecDepth 10000 in
/-- C4 as stated fails when the tracked producer has expired: in `stExpired`
the consuming pad is linked to `padSrc` and nothing live is tracked; the
resolution step of `linkPad` leaves that link in place, the new link is
attempted on the linked pad and refused (WAS_LINKED), `linkPad` returns false
and the pad is still linked to `padSrc`. -/
theorem replace_skipped_when_expired :
    lock stExpired = none ∧
    gst_pad_get_peer stExpired.gst padSink = some padSrc ∧
    (linkPad_resolve 1 stExpired).map (fun r => gst_pad_get_peer r.2.gst r.1)
      = some (some padSrc) ∧
    (linkPad acceptAll 1 producerQ padSrcQ stExpired).map
      (fun r => (r.1, gst_pad_get_peer r.2.gst padSink, r.2.gst.trace.head?))
      = some (false, some padSrc,
          some (Event.link padSrcQ padSink GstPadLinkReturn.GST_PAD_LINK_WAS_LINKED)) := by
  decide


/-- C10: for a capsfilter `f` inserted in the bin `c` with both pads linked,
whichever pad is unlinked first (its "src" pad from the consuming pad `q`, or
the producing pad `p` from its "sink" pad), the cascade of "unlinked"
notifications leaves both its pads without peer and removes it from `c`
exactly once, removing nothing else; afterwards `remove_from_parent`,
`sink_unlinked` and `src_unlinked` change nothing.  `remove_from_parent` does
nothing on any element that has no parent. -/
theorem adapter_single_teardown (g : Gst) (f c : Elem) (p q : Pad)
    (h : AdapterInserted g f c p q) (g' : Gst)
    (hfirst : g' = gst_pad_unlink ⟨f, "src"⟩ q g ∨ g' = gst_pad_unlink p ⟨f, "sink"⟩ g) :
    gst_pad_get_peer g' ⟨f, "sink"⟩ = none ∧ gst_pad_get_peer g' ⟨f, "src"⟩ = none ∧
    elemParent g f = some c ∧ elemParent g' f = none ∧
    g'.children = g.children.filter (fun x => decide (x ≠ (c, f))) ∧
    removals c f g'.trace = removals c f g.trace + 1 ∧
    (∀ u, remove_from_parent u f g' = g') ∧
    (∀ u pad peer, sink_unlinked u pad peer f g' = g') ∧
    (∀ u pad peer, src_unlinked u pad peer f g' = g') ∧
    (∀ u e g0, elemParent g0 e = none → remove_from_parent u e g0 = g0) := by
  have key : ∃ a b a' b', g' = tornDown g f c a b a' b' ∧
      ((⟨f, "sink"⟩ : Pad) = a ∨ (⟨f, "sink"⟩ : Pad) = b ∨ (⟨f, "sink"⟩ : Pad) = a' ∨
        (⟨f, "sink"⟩ : Pad) = b') ∧
      ((⟨f, "src"⟩ : Pad) = a ∨ (⟨f, "src"⟩ : Pad) = b ∨ (⟨f, "src"⟩ : Pad) = a' ∨
        (⟨f, "src"⟩ : Pad) = b') := by
    rcases hfirst with e | e
    · exact ⟨_, _, _, _, e.trans (teardown_consumer_first g f c p q h),
        Or.inr (Or.inr (Or.inr rfl)), Or.inl rfl⟩
    · exact ⟨_, _, _, _, e.trans (teardown_producer_first g f c p q h),
        Or.inr (Or.inl rfl), Or.inr (Or.inr (Or.inl rfl))⟩
  obtain ⟨a, b, a', b', e, hs, hr⟩ := key
  have p1 : gst_pad_get_peer g' ⟨f, "sink"⟩ = none := by
    rw [e]; exact tornDown_peer_none g f c a b a' b' _ hs
  have p2 : gst_pad_get_peer g' ⟨f, "src"⟩ = none := by
    rw [e]; exact tornDown_peer_none g f c a b a' b' _ hr
  have p3 : elemParent g' f = none :=
    elemParent_removed _ g f c h.parent rfl g' (by rw [e]; rfl)
  have p4 : ∀ u, remove_from_parent u f g' = g' := fun u => remove_from_parent_noop u f g' p3
  refine ⟨p1, p2, elemParent_of_filter g f c h.parent, p3, by rw [e]; rfl, ?_, p4, ?_, ?_,
    fun u e g0 h0 => remove_from_parent_noop u e g0 h0⟩
  · rw [e]
    simp [removals, tornDown, List.count_cons]
  · intro u pad peer
    rw [sink_unlinked_remove u pad peer f g' p2]; exact p4 u
  · intro u pad peer
    rw [src_unlinked_remove u pad peer f g' p1]; exact p4 u

/-- C10, instance: the capsfilter 1000 of `pipeLoop`, the consumer side
unlinked first. -/
theorem adapter_single_teardown_witness :
    AdapterInserted pipeLoop 1000 50 padSrc padSink ∧
    elemParent (gst_pad_unlink ⟨1000, "src"⟩ padSink pipeLoop) 1000 = none ∧
    removals 50 1000 (gst_pad_unlink ⟨1000, "src"⟩ padSink pipeLoop).trace
      = removals 50 1000 pipeLoop.trace + 1 :=
  have h : AdapterInserted pipeLoop 1000 50 padSrc padSink :=
    ⟨by decide, by decide, by decide, by decide, by decide, by decide, by decide, by decide,
     by decide, by decide, by decide, by decide, by decide, by decide⟩
  ⟨h, (adapter_single_teardown pipeLoop 1000 50 padSrc padSink h _ (Or.inl rfl)).2.2.2.1,
    (adapter_single_teardown pipeLoop 1000 50 padSrc padSink h _ (Or.inl rfl)).2.2.2.2.2.1⟩

/-- C6 (as amended): when the parents are the same and the two pads are
ordinary endpoint pads (they predate the capsfilter and carry no tear-down
callback), a successful `linkPad` first leaves the pipeline `s0` in which a
previous link of the consuming pad has been severed (`s0` has the links and
bin contents of the state before the call when the consuming pad had no
peer), then adds exactly one capsfilter to the container, linked
producer -> capsfilter -> consumer, and nothing else; the matching `unlink`,
once the probe callback has run, returns and leaves the bin contents and the
links exactly as they were in `s0`: those before `linkPad` when the consuming
pad had no peer, those without the severed previous link otherwise. -/
theorem self_loop_round_trip (accepts : Pad → Pad → Bool) (fires : Nat)
    (mediaSrc : MediaSourceImpl) (src : Pad) (s s1 : State)
    (hpar : mediaSrc.parent = s.self.parent) (halive : mediaSrc ∈ s.alive)
    (hfresh : FreshElem s.gst) (hsrc : src.elem < s.gst.nextElem)
    (hself : s.self.element < s.gst.nextElem)
    (hcbp : s.gst.handlers.filter (fun h => decide (h.1 = src)) = [])
    (hcbq : s.gst.handlers.filter
      (fun h => decide (h.1 = ⟨s.self.element, getPadName s.self⟩)) = [])
    (hlink : linkPad accepts fires mediaSrc src s = some (true, s1)) :
    ∃ s0 c, linkPad_resolve fires s = some (⟨s.self.element, getPadName s.self⟩, s0) ∧
      s0.gst.links.Sublist s.gst.links ∧ s0.gst.children.Sublist s.gst.children ∧
      (gst_pad_get_peer s.gst ⟨s.self.element, getPadName s.self⟩ = none →
        s0.gst.links = s.gst.links ∧ s0.gst.children = s.gst.children) ∧
      gst_pad_get_peer s0.gst ⟨s.self.element, getPadName s.self⟩ = none ∧
      elemParent s0.gst s.self.element = some c ∧
      s1.gst.children = (c, s.gst.nextElem) :: s0.gst.children ∧
      s1.gst.links = (src, ⟨s.gst.nextElem, "sink"⟩) ::
        (⟨s.gst.nextElem, "src"⟩, ⟨s.self.element, getPadName s.self⟩) :: s0.gst.links ∧
      ∀ (fires' : Nat) (sinkArg : Option Pad),
        (sinkArg = none ∨ sinkArg = some ⟨s.self.element, getPadName s.self⟩) →
        ∃ s2, unlink (fires' + 1) (some mediaSrc) sinkArg s1 = some s2 ∧
          s2.gst.children = s0.gst.children ∧ s2.gst.links = s0.gst.links := by
  unfold linkPad at hlink
  split at hlink
  · cases hlink
  · next sink s0 hres =>
    simp only [Option.some.injEq] at hlink
    have hsink := resolve_pad fires s sink s0 hres
    subst hsink
    obtain ⟨f1, f2, f3, f4⟩ := resolve_frame fires s _ s0 hres
    obtain ⟨r1, r2, r3, _⟩ := resolve_state fires s _ s0 hres
    have hfresh0 := fresh_of_resolve fires s _ s0 hres hfresh
    have hfreeEq : gst_pad_get_peer s.gst ⟨s.self.element, getPadName s.self⟩ = none →
        s0.gst.links = s.gst.links ∧ s0.gst.children = s.gst.children := by
      intro hfree
      rw [resolve_unlinked fires s hfree] at hres
      have := (Prod.mk.inj (Option.some.inj hres)).2
      rw [← this]
      exact ⟨sink_links s, sink_children s⟩
    have hcore := round_trip_core accepts mediaSrc src s0 s1 (by rw [f1]; exact hpar)
      (by rw [f2]; exact halive) hfresh0 (by rw [r2]; exact hsrc)
      (by rw [f1, r2]; exact hself) (by rw [r1]; exact hcbp)
      (by rw [f1, r1]; exact hcbq) (by rw [f1]; exact r3) (by rw [f1]; exact hlink)
    rw [f1, r2] at hcore
    obtain ⟨c, hc, h1, h2, h3⟩ := hcore
    have hfree0 : gst_pad_get_peer s0.gst ⟨s.self.element, getPadName s.self⟩ = none := by
      rw [peer_none_iff]
      intro l hl
      -- the consuming pad is free in `s0` because the first capsfilter link was made
      have hconn : linkPad_connect accepts mediaSrc src
          ⟨s0.self.element, getPadName s0.self⟩ s0 = (true, s1) := by rw [f1]; exact hlink
      unfold linkPad_connect linkPad_attempt at hconn
      simp only [show mediaSrc.parent = s0.self.parent by rw [f1]; exact hpar, if_true] at hconn
      cases hL : linkPad_loopback accepts src ⟨s0.self.element, getPadName s0.self⟩ s0.gst with
      | none => simp [hL] at hconn
      | some r =>
        obtain ⟨b, G'⟩ := r
        cases b with
        | false => simp [hL] at hconn
        | true =>
          have := loopback_sink_free accepts src _ s0.gst G' hL
          rw [f1] at this
          exact (peer_none_iff _ _).mp this l hl
    exact ⟨s0, c, hres, f3, f4, hfreeEq, hfree0, hc, h1, h2, h3⟩

set_option maxRecDepth 10000 in
/-- C6, instance: the consuming pad of `st0` has no peer; the loopback link of
`producerL` gives `stLoop`, and the matching `unlink` restores the links and
bin contents of `st0`. -/
theorem self_loop_round_trip_witness :
    linkPad acceptAll 1 producerL padSrc st0 = some (true, stLoop) ∧
    ∃ s2, unlink 1 (some producerL) (some padSink) stLoop = some s2 ∧
      s2.gst.children = st0.gst.children ∧ s2.gst.links = st0.gst.links :=
  match self_loop_round_trip acceptAll 1 producerL padSrc st0 stLoop rfl (by decide)
      (by unfold FreshElem; decide) (by decide) (by decide) (by decide) (by decide)
      (by decide) with
  | ⟨_, _, _, _, _, hfree, _, _, _, _, hu⟩ =>
    match hu 0 (some padSink) (Or.inr rfl) with
    | ⟨s2, h2, hc, hl⟩ =>
      ⟨by decide, s2, h2, hc.trans (hfree (by decide)).2, hl.trans (hfree (by decide)).1⟩

set_option maxRecDepth 10000 in
/-- C6 as stated fails when the consuming pad is linked before the call: in
`stDirect` it is linked to `padSrc`; the loopback `linkPad` of `producerL`
(same parent, container 50) succeeds and inserts the capsfilter 1000, the
matching `unlink` returns and removes it, and the links are then empty, not
the pre-link links: the previous link is not restored. -/
theorem round_trip_loses_previous_link :
    stDirect.gst.links = [(padSrc, padSink)] ∧
    (linkPad acceptAll 1 producerL padSrcQ stDirect).map
      (fun r => (r.1, r.2.gst.links, r.2.gst.children))
      = some (true, [(padSrcQ, ⟨1000, "sink"⟩), (⟨1000, "src"⟩, padSink)],
          [(50, 1000), (50, 10), (50, 11)]) ∧
    ((linkPad acceptAll 1 producerL padSrcQ stDirect).bind
        (fun r => unlink 1 (some producerL) (some padSink) r.2)).map
      (fun s2 => (s2.gst.links, s2.gst.children))
      = some ([], [(50, 10), (50, 11)]) := by
  decide

set_option maxRecDepth 10000 in
/-- C9, instance: three runs of the probe callback on the direct link of
`stDirect`; the second and third change nothing. -/
theorem duplicate_firing_noop_witness :
    fireProbe padSrc (blockedLambda padSink) 3 (stDirect.gst, { blocked := false, signals := 0 })
      = (pad_blocked_adaptor padSrc (blockedLambda padSink)
          (stDirect.gst, { blocked := false, signals := 0 })).2 ∧
    (fireProbe padSrc (blockedLambda padSink) 3
      (stDirect.gst, { blocked := false, signals := 0 })).2.signals ≤ 1 :=
  ⟨(duplicate_firing_noop padSrc padSink stDirect.gst { blocked := false, signals := 0 } 1).2.1,
   (duplicate_firing_noop padSrc padSink stDirect.gst
      { blocked := false, signals := 0 } 1).2.2.2⟩

/-! ## Two observations on the failure paths of `linkPad`

They are the reason why C3 is stated above without the capsfilter and
without the release of the pad on these two paths. -/

set_option maxRecDepth 10000 in
/-- When the first capsfilter link is refused, `linkPad` returns false and the
capsfilter it added stays in the container, unlinked. -/
theorem refused_first_link_keeps_capsfilter :
    (linkPad acceptNone 1 producerL padSrc st0).map
      (fun r => (r.1, r.2.gst.children, r.2.gst.links))
      = some (false, (50, 1000) :: st0.gst.children, []) := by
  decide

set_option maxRecDepth 10000 in
/-- When the container cannot be resolved, `linkPad` returns false through
`end` and a consuming pad it requested stays on the element. -/
theorem unresolved_container_keeps_requested_pad :
    (linkPad acceptAll 1 producerL padSrc
        { st0 with gst := { pipe0 with pads := [padSrc], children := [] } }).map
      (fun r => (r.1, r.2.gst.pads, r.2.gst.request))
      = some (false, [padSink, padSrc], [padSink]) := by
  decide

end Kurento
